import Mathlib

/-!
Navigation categories of the calculator (`src/CalcViewModel/Common/NavCategory.cpp`)

A shallow embedding of the category manifest and of the lookups over it, followed by the
properties of these lookups.

Conventions of the embedding.
* `std::vector<NavCategoryInitializer>` is a `List`; an iterator returned by `find_if` is
  `Option` of the element it points to, `cend()` being `none`.
* A lambda that captures locals by reference becomes a function that takes the captured state
  and returns the verdict together with the new state (`find_if_st`).
* C++ `int` values are `Int`. The counters of the index queries grow by at most two per entry,
  so they stay inside `int` for every manifest of fewer than `2^30` entries.
* The manifest is a parameter of every operation; `s_categoryManifest` is the manifest of the
  source, and the operations of the program are the ones applied to it.
* The process-wide mutable state (`CurrentUserId` and the function-local static `enabled`) is
  an explicit `NavState` that is passed in and returned.
* A counted `Platform::String` is a `String`, which may hold `NUL` characters; a `const wchar_t*`
  that `wcscmp` reads is a `WideCString`, the text before the first `NUL`.
-/

set_option linter.dupNamespace false

namespace CalculatorApp

/-- Modelled from the spec: the enumeration `ViewMode` is declared in `NavCategory.h`, which is
not among the sources. It has `None` and one member per serialization id constant of
NavCategory.cpp lines 30-47. -/
inductive ViewMode where
  | None
  | Standard
  | Scientific
  | Programmer
  | Date
  | Volume
  | Length
  | Weight
  | Temperature
  | Energy
  | Area
  | Speed
  | Time
  | Power
  | Data
  | Pressure
  | Angle
  | Currency
  | Graphing
  deriving DecidableEq, Repr

/-- Modelled from the spec: the enumeration `CategoryGroupType` of `NavCategory.h`
("group type enum {Calculator, Converter, None}"). -/
inductive CategoryGroupType where
  | None
  | Calculator
  | Converter
  deriving DecidableEq, Repr

/-- Modelled from the spec: the enumeration `MyVirtualKey` of `NavCategory.h`, an enumeration
over the platform's virtual key codes. A key is its code; the three members the source names are
`None`, `Number1` and `Number2`. -/
structure MyVirtualKey where
  code : Int
  deriving DecidableEq, Repr

/-- The member `MyVirtualKey::None` (no accelerator). -/
def MyVirtualKey.None : MyVirtualKey := ⟨0⟩

/-- The member `MyVirtualKey::Number1`. -/
def MyVirtualKey.Number1 : MyVirtualKey := ⟨49⟩

/-- The member `MyVirtualKey::Number2`. -/
def MyVirtualKey.Number2 : MyVirtualKey := ⟨50⟩

/-- The character that terminates a C string. -/
def NUL : Char := Char.ofNat 0

/-- A null-terminated wide string (`const wchar_t*`): the text before the terminator, which
holds no `NUL`. -/
structure WideCString where
  text : String
  terminated : text.toList.all (fun c => c != NUL) = true
  deriving DecidableEq, Repr

/-- The null-terminated string that starts at the first character of a buffer: what a wide
literal denotes, and what the pointer `String::Data()` of a counted `Platform::String` reads as.
The text stops at the first `NUL` of the buffer. -/
def WideCString.read (buffer : String) : WideCString :=
  ⟨String.mk (buffer.toList.takeWhile (fun c => c != NUL)), by
    rw [List.all_eq_true]
    intro c hc
    have h := List.mem_takeWhile_imp hc
    simpa using h⟩

/-- The loop of `wcscmp` over the characters of two texts, the end of a text standing for its
terminator: 0 when the texts are equal, else negative or positive by the first difference. -/
def wcscmpChars : List Char → List Char → Int
  | [], [] => 0
  | [], _ :: _ => -1
  | _ :: _, [] => 1
  | x :: xs, y :: ys =>
    if x = y then wcscmpChars xs ys else if x.toNat < y.toNat then -1 else 1

/-- The C library function `wcscmp`. -/
def wcscmp (a b : WideCString) : Int :=
  wcscmpChars a.text.toList b.text.toList

/-- Modelled from the spec: the record `NavCategoryInitializer` of `NavCategory.h`, with the
fields in the order in which the manifest of NavCategory.cpp lines 70-87 initialises them.
`friendlyName` is the `const wchar_t*` that `wcscmp` reads; the resource key and the glyph are
only wrapped into platform strings and are kept as their text. -/
structure NavCategoryInitializer where
  viewMode : ViewMode
  serializationId : Int
  friendlyName : WideCString
  nameResourceKey : String
  glyph : String
  groupType : CategoryGroupType
  virtualKey : MyVirtualKey
  accessKey : Option String
  supportsNegative : Bool
  deriving DecidableEq, Repr

/-- A `Platform::Object^` as far as `Deserialize` can tell values apart: a null reference, a
`Box<int>` with its value, or an object of any other runtime class (named by a tag). -/
inductive PlatformObject where
  | null
  | boxedInt (value : Int)
  | other (runtimeClass : String)
  deriving DecidableEq, Repr

/-- The result of `dynamic_cast<Box<int>^>(obj)`: the boxed value, or `none` for `nullptr`. -/
def PlatformObject.asBoxedInt : PlatformObject → Option Int
  | .boxedInt v => some v
  | .null => none
  | .other _ => none

/-- A `Windows::System::User`, identified by the id it was resolved from. -/
structure User where
  id : String
  deriving DecidableEq, Repr

/-- The platform services `IsGraphingModeEnabled` consults: `User::GetFromId` (`none` is
`nullptr`) and the boolean of `NamedPolicy::GetPolicyFromPathForUser(user, area, name)`. -/
structure PlatformServices where
  GetFromId : String → Option User
  GetPolicyBoolean : User → String → String → Bool

/-- The mutable state of the translation unit: `CurrentUserId` (line 52) and the function-local
static `enabled` of `IsGraphingModeEnabled` (line 56), `none` until its first evaluation. -/
structure NavState where
  CurrentUserId : String
  enabled : Option Bool
  deriving DecidableEq, Repr

/-- The state at process start: a null user id and an uninitialised static. -/
def NavState.initial : NavState := ⟨"", none⟩

/-- Calculator categories always support negative and positive (line 23). -/
def SUPPORTS_ALL : Bool := true

/-- Line 26. -/
def SUPPORTS_NEGATIVE : Bool := true

/-- Line 27. -/
def POSITIVE_ONLY : Bool := false

def STANDARD_ID : Int := 0
def SCIENTIFIC_ID : Int := 1
def PROGRAMMER_ID : Int := 2
def DATE_ID : Int := 3
def VOLUME_ID : Int := 4
def LENGTH_ID : Int := 5
def WEIGHT_ID : Int := 6
def TEMPERATURE_ID : Int := 7
def ENERGY_ID : Int := 8
def AREA_ID : Int := 9
def SPEED_ID : Int := 10
def TIME_ID : Int := 11
def POWER_ID : Int := 12
def DATA_ID : Int := 13
def PRESSURE_ID : Int := 14
def ANGLE_ID : Int := 15
def CURRENCY_ID : Int := 16
def GRAPHING_ID : Int := 17

/-- The lambda of lines 56-64 that initialises the static `enabled`. -/
def computeGraphingModeEnabled (services : PlatformServices) (CurrentUserId : String) : Bool :=
  match services.GetFromId CurrentUserId with
  | none => true
  | some user => services.GetPolicyBoolean user "Education" "AllowGraphingCalculator"

/-- `IsGraphingModeEnabled` (lines 54-66): the static is initialised on the first call and
returned unchanged by every later one. -/
def IsGraphingModeEnabled (services : PlatformServices) (s : NavState) : Bool × NavState :=
  match s.enabled with
  | some enabled => (enabled, s)
  | none =>
    let enabled := computeGraphingModeEnabled services s.CurrentUserId
    (enabled, { s with enabled := some enabled })

/-- The manifest of the source (lines 69-88). -/
def s_categoryManifest : List NavCategoryInitializer :=
  [ { viewMode := ViewMode.Standard,
      serializationId := STANDARD_ID,
      friendlyName := WideCString.read "Standard",
      nameResourceKey := "StandardMode",
      glyph := "",
      groupType := CategoryGroupType.Calculator,
      virtualKey := MyVirtualKey.Number1,
      accessKey := some "1",
      supportsNegative := SUPPORTS_ALL },
    { viewMode := ViewMode.Scientific,
      serializationId := SCIENTIFIC_ID,
      friendlyName := WideCString.read "Scientific",
      nameResourceKey := "ScientificMode",
      glyph := "",
      groupType := CategoryGroupType.Calculator,
      virtualKey := MyVirtualKey.Number2,
      accessKey := some "2",
      supportsNegative := SUPPORTS_ALL } ]

/-- `std::find_if` with a predicate that has no side effect: the first element that satisfies
it, `none` for the end iterator. -/
def find_if {α : Type} (l : List α) (pred : α → Bool) : Option α :=
  match l with
  | [] => none
  | x :: rest => if pred x then some x else find_if rest pred

/-- `std::find_if` with a predicate that updates captured locals: the predicate is called on
the elements in order until it answers true, threading the captured state through the calls. -/
def find_if_st {α σ : Type} (l : List α) (pred : σ → α → Bool × σ) (s : σ) : Option α × σ :=
  match l with
  | [] => (none, s)
  | x :: rest =>
    let r := pred s x
    if r.1 then (some x, r.2) else find_if_st rest pred r.2

/-- `std::any_of`. -/
def any_of {α : Type} (l : List α) (pred : α → Bool) : Bool :=
  match l with
  | [] => false
  | x :: rest => if pred x then true else any_of rest pred

namespace NavCategory

/-- Lines 113-121. -/
def IsModeInCategoryGroup (manifest : List NavCategoryInitializer) (mode : ViewMode)
    (type : CategoryGroupType) : Bool :=
  any_of manifest (fun initializer =>
    initializer.viewMode == mode && initializer.groupType == type)

/-- Lines 98-101. -/
def IsGraphingCalculatorViewMode (mode : ViewMode) : Bool :=
  mode == ViewMode.Graphing

/-- Lines 103-106. -/
def IsDateCalculatorViewMode (mode : ViewMode) : Bool :=
  mode == ViewMode.Date

/-- Lines 92-96. -/
def IsCalculatorViewMode (manifest : List NavCategoryInitializer) (mode : ViewMode) : Bool :=
  !IsDateCalculatorViewMode mode && !IsGraphingCalculatorViewMode mode
    && IsModeInCategoryGroup manifest mode CategoryGroupType.Calculator

/-- Lines 108-111. -/
def IsConverterViewMode (manifest : List NavCategoryInitializer) (mode : ViewMode) : Bool :=
  IsModeInCategoryGroup manifest mode CategoryGroupType.Converter

end NavCategory

namespace NavCategoryStates

/-- Lines 160-163. -/
def SetCurrentUser (userId : String) (s : NavState) : NavState :=
  { s with CurrentUserId := userId }

/-- Lines 185-193. -/
def Serialize (manifest : List NavCategoryInitializer) (mode : ViewMode) : Int :=
  match find_if manifest (fun initializer => initializer.viewMode == mode) with
  | some citer => citer.serializationId
  | none => -1

/-- Lines 196-220. `IsGraphingModeEnabled` is only evaluated when the entry found is the
Graphing one, so only then can the state change. -/
def Deserialize (manifest : List NavCategoryInitializer) (services : PlatformServices)
    (obj : PlatformObject) (s : NavState) : ViewMode × NavState :=
  match obj.asBoxedInt with
  | some serializationId =>
    match find_if manifest (fun initializer => initializer.serializationId == serializationId) with
    | some citer =>
      if citer.viewMode == ViewMode.Graphing then
        let r := IsGraphingModeEnabled services s
        (if r.1 then citer.viewMode else ViewMode.None, r.2)
      else (citer.viewMode, s)
    | none => (ViewMode.None, s)
  | none => (ViewMode.None, s)

/-- Lines 222-230. `name` is a counted `Platform::String`; `name->Data()` is read by `wcscmp`
as a null-terminated string, up to the first `NUL` that `name` holds. -/
def GetViewModeForFriendlyName (manifest : List NavCategoryInitializer) (name : String) :
    ViewMode :=
  match find_if manifest
      (fun initializer => wcscmp initializer.friendlyName (WideCString.read name) == 0) with
  | some citer => citer.viewMode
  | none => ViewMode.None

/-- Lines 232-240. `StringReference(citer->friendlyName)` is the platform string with the text
of the null-terminated string. -/
def GetFriendlyName (manifest : List NavCategoryInitializer) (mode : ViewMode) : String :=
  match find_if manifest (fun initializer => initializer.viewMode == mode) with
  | some citer => citer.friendlyName.text
  | none => "None"

/-- Lines 242-250; `none` is the `nullptr` returned on a miss. -/
def GetNameResourceKey (manifest : List NavCategoryInitializer) (mode : ViewMode) :
    Option String :=
  match find_if manifest (fun initializer => initializer.viewMode == mode) with
  | some citer => some (citer.nameResourceKey ++ "Text")
  | none => none

/-- Lines 252-260. -/
def GetGroupType (manifest : List NavCategoryInitializer) (mode : ViewMode) :
    CategoryGroupType :=
  match find_if manifest (fun initializer => initializer.viewMode == mode) with
  | some citer => citer.groupType
  | none => CategoryGroupType.None

/-- Lines 309-321: the lambda increments the captured `position` on every call. -/
def GetPosition (manifest : List NavCategoryInitializer) (mode : ViewMode) : Int :=
  let r := find_if_st manifest
    (fun (position : Int) initializer => (initializer.viewMode == mode, position + 1)) 0
  match r.1 with
  | some _ => r.2
  | none => -1

/-- Lines 263-267. -/
def GetIndex (manifest : List NavCategoryInitializer) (mode : ViewMode) : Int :=
  let position := GetPosition manifest mode
  max (-1) (position - 1)

/-- The lambda of lines 276-284 on its captured pair (`type`, `index`). -/
def flatIndexStep (mode : ViewMode) (captured : CategoryGroupType × Int)
    (initializer : NavCategoryInitializer) : Bool × (CategoryGroupType × Int) :=
  let index := captured.2 + 1
  if initializer.groupType != captured.1 then
    (initializer.viewMode == mode, (initializer.groupType, index + 1))
  else
    (initializer.viewMode == mode, (captured.1, index))

/-- Lines 269-287. -/
def GetFlatIndex (manifest : List NavCategoryInitializer) (mode : ViewMode) : Int :=
  let r := find_if_st manifest (flatIndexStep mode) (CategoryGroupType.None, -1)
  match r.1 with
  | some _ => r.2.2
  | none => -1

/-- The lambda of lines 296-303 on its captured `index`. -/
def indexInGroupStep (mode : ViewMode) (type : CategoryGroupType) (index : Int)
    (initializer : NavCategoryInitializer) : Bool × Int :=
  if initializer.groupType == type then
    (initializer.viewMode == mode, index + 1)
  else
    (false, index)

/-- Lines 290-306. -/
def GetIndexInGroup (manifest : List NavCategoryInitializer) (mode : ViewMode)
    (type : CategoryGroupType) : Int :=
  let r := find_if_st manifest (indexInGroupStep mode type) (-1)
  match r.1 with
  | some _ => r.2
  | none => -1

/-- Lines 323-331. -/
def GetViewModeForVirtualKey (manifest : List NavCategoryInitializer)
    (virtualKey : MyVirtualKey) : ViewMode :=
  match find_if manifest (fun initializer => initializer.virtualKey == virtualKey) with
  | some citer => citer.viewMode
  | none => ViewMode.None

/-- The loop of lines 338-344 from a given content of the output vector. -/
def appendAcceleratorKeys (manifest : List NavCategoryInitializer)
    (accelerators : List MyVirtualKey) : List MyVirtualKey :=
  match manifest with
  | [] => accelerators
  | category :: rest =>
    if category.virtualKey != MyVirtualKey.None then
      appendAcceleratorKeys rest (accelerators ++ [category.virtualKey])
    else
      appendAcceleratorKeys rest accelerators

/-- Lines 333-346. The output vector is `none` for `nullptr`; the result is its content after
the call. -/
def GetCategoryAcceleratorKeys (manifest : List NavCategoryInitializer)
    (accelerators : Option (List MyVirtualKey)) : Option (List MyVirtualKey) :=
  match accelerators with
  | some _ => some (appendAcceleratorKeys manifest [])
  | none => none

/-- Lines 348-356. -/
def IsValidViewMode (manifest : List NavCategoryInitializer) (mode : ViewMode) : Bool :=
  match find_if manifest (fun initializer => initializer.viewMode == mode) with
  | some _ => true
  | none => false

/-- Lines 358-361. -/
def IsViewModeEnabled (services : PlatformServices) (mode : ViewMode) (s : NavState) :
    Bool × NavState :=
  if mode != ViewMode.Graphing then (true, s) else IsGraphingModeEnabled services s

end NavCategoryStates

/-! ### Category groups -/

/-- Modelled from the spec: the record `NavCategoryGroupInitializer` of `NavCategory.h`, "group
type + three resource keys for header/mode/automation text", in the order in which lines 175 and
181 initialise it. -/
structure NavCategoryGroupInitializer where
  type : CategoryGroupType
  headerResourceKey : String
  modeResourceKey : String
  automationResourceKey : String
  deriving DecidableEq, Repr

/-- The localization collaborators of the constructor: `AppResourceProvider::GetResourceString`
and `LocalizationStringUtil::GetLocalizedString` (a format and its arguments). -/
structure ResourceServices where
  GetResourceString : String → String
  GetLocalizedString : String → List String → String

/-- Modelled from the spec: the display item `NavCategory` of `NavCategory.h`, with the fields
in the order of the constructor call of lines 146-155 (name, automation name, glyph, access key,
mode-group name, view mode, supports-negative flag, enabled flag). -/
structure NavCategory where
  name : String
  automationName : String
  glyph : String
  accessKey : String
  mode : String
  viewMode : ViewMode
  supportsNegative : Bool
  isEnabled : Bool
  deriving DecidableEq, Repr

/-- The members of `NavCategoryGroup` that the constructor sets. -/
structure NavCategoryGroup where
  GroupType : CategoryGroupType
  Name : String
  AutomationName : String
  Categories : List NavCategory
  deriving DecidableEq, Repr

/-- The loop of lines 138-157 from a given content of `m_Categories`. -/
def appendCategories (resProvider : ResourceServices)
    (groupInitializer : NavCategoryGroupInitializer)
    (m_Name groupMode navCategoryItemAutomationNameFormat : String)
    (manifest : List NavCategoryInitializer) (m_Categories : List NavCategory) :
    List NavCategory :=
  match manifest with
  | [] => m_Categories
  | categoryInitializer :: rest =>
    if categoryInitializer.groupType == groupInitializer.type then
      let nameResourceKey := categoryInitializer.nameResourceKey
      let categoryName := resProvider.GetResourceString (nameResourceKey ++ "Text")
      let categoryAutomationName := resProvider.GetLocalizedString
        navCategoryItemAutomationNameFormat [categoryName, m_Name]
      appendCategories resProvider groupInitializer m_Name groupMode
        navCategoryItemAutomationNameFormat rest
        (m_Categories ++ [
          { name := categoryName,
            automationName := categoryAutomationName,
            glyph := categoryInitializer.glyph,
            accessKey :=
              match categoryInitializer.accessKey with
              | some key => key
              | none => resProvider.GetResourceString (nameResourceKey ++ "AccessKey"),
            mode := groupMode,
            viewMode := categoryInitializer.viewMode,
            supportsNegative := categoryInitializer.supportsNegative,
            isEnabled := categoryInitializer.viewMode != ViewMode.Graphing }])
    else
      appendCategories resProvider groupInitializer m_Name groupMode
        navCategoryItemAutomationNameFormat rest m_Categories

/-- The constructor `NavCategoryGroup::NavCategoryGroup` (lines 123-158). -/
def NavCategoryGroup.NavCategoryGroup (manifest : List NavCategoryInitializer)
    (resProvider : ResourceServices) (groupInitializer : NavCategoryGroupInitializer) :
    NavCategoryGroup :=
  let m_Name := resProvider.GetResourceString groupInitializer.headerResourceKey
  let groupMode := resProvider.GetResourceString groupInitializer.modeResourceKey
  let automationName := resProvider.GetResourceString groupInitializer.automationResourceKey
  let navCategoryHeaderAutomationNameFormat :=
    resProvider.GetResourceString "NavCategoryHeader_AutomationNameFormat"
  let m_AutomationName :=
    resProvider.GetLocalizedString navCategoryHeaderAutomationNameFormat [automationName]
  let navCategoryItemAutomationNameFormat :=
    resProvider.GetResourceString "NavCategoryItem_AutomationNameFormat"
  { GroupType := groupInitializer.type,
    Name := m_Name,
    AutomationName := m_AutomationName,
    Categories := appendCategories resProvider groupInitializer m_Name groupMode
      navCategoryItemAutomationNameFormat manifest [] }

namespace NavCategoryStates

/-- Lines 172-176. -/
def CreateCalculatorCategoryGroup (manifest : List NavCategoryInitializer)
    (resProvider : ResourceServices) : NavCategoryGroup :=
  NavCategoryGroup.NavCategoryGroup manifest resProvider
    ⟨CategoryGroupType.Calculator, "CalculatorModeTextCaps", "CalculatorModeText",
      "CalculatorModePluralText"⟩

/-- Lines 178-182. -/
def CreateConverterCategoryGroup (manifest : List NavCategoryInitializer)
    (resProvider : ResourceServices) : NavCategoryGroup :=
  NavCategoryGroup.NavCategoryGroup manifest resProvider
    ⟨CategoryGroupType.Converter, "ConverterModeTextCaps", "ConverterModeText",
      "ConverterModePluralText"⟩

/-- Lines 165-170. -/
def CreateMenuOptions (manifest : List NavCategoryInitializer)
    (resProvider : ResourceServices) : List NavCategoryGroup :=
  let menuOptions : List NavCategoryGroup := []
  menuOptions ++ [CreateCalculatorCategoryGroup manifest resProvider]

end NavCategoryStates

/-! ### Sequences of calls on the mutable state -/

/-- A call that can touch the mutable state, with the platform services as they answer at the
time of the call (a policy change is a later call with other services). -/
inductive NavCall where
  | setCurrentUser (userId : String)
  | isViewModeEnabled (services : PlatformServices) (mode : ViewMode)
  | deserialize (services : PlatformServices) (obj : PlatformObject)

/-- The state after one call. -/
def NavCall.run (manifest : List NavCategoryInitializer) (call : NavCall) (s : NavState) :
    NavState :=
  match call with
  | .setCurrentUser userId => NavCategoryStates.SetCurrentUser userId s
  | .isViewModeEnabled services mode => (NavCategoryStates.IsViewModeEnabled services mode s).2
  | .deserialize services obj => (NavCategoryStates.Deserialize manifest services obj s).2

/-- The state after a sequence of calls, first call first. -/
def runCalls (manifest : List NavCategoryInitializer) (calls : List NavCall) (s : NavState) :
    NavState :=
  match calls with
  | [] => s
  | call :: rest => runCalls manifest rest (call.run manifest s)

/-- The serialization id constant that lines 30-47 define for a mode; `None` has none. -/
def serializationIdConstant (mode : ViewMode) : Option Int :=
  match mode with
  | .None => none
  | .Standard => some STANDARD_ID
  | .Scientific => some SCIENTIFIC_ID
  | .Programmer => some PROGRAMMER_ID
  | .Date => some DATE_ID
  | .Volume => some VOLUME_ID
  | .Length => some LENGTH_ID
  | .Weight => some WEIGHT_ID
  | .Temperature => some TEMPERATURE_ID
  | .Energy => some ENERGY_ID
  | .Area => some AREA_ID
  | .Speed => some SPEED_ID
  | .Time => some TIME_ID
  | .Power => some POWER_ID
  | .Data => some DATA_ID
  | .Pressure => some PRESSURE_ID
  | .Angle => some ANGLE_ID
  | .Currency => some CURRENCY_ID
  | .Graphing => some GRAPHING_ID

/-- Platform services that resolve only the user "student", for whom the policy forbids
graphing. -/
def studentForbidden : PlatformServices :=
  ⟨fun id => if id = "student" then some ⟨id⟩ else none, fun _ _ _ => false⟩

/-- Resource services that return the key itself and join a format with its arguments. -/
def echoResources : ResourceServices :=
  ⟨fun key => key, fun format args => String.intercalate "|" (format :: args)⟩

/-! ### Reference definition of the flat index

The flat index as the specification words it, to be compared with `GetFlatIndex`. -/

/-- The 0-based position of the first entry that carries the mode, `none` when no entry does. -/
def firstPosition (manifest : List NavCategoryInitializer) (mode : ViewMode) : Option Nat :=
  match manifest with
  | [] => none
  | x :: rest =>
    if x.viewMode = mode then some 0 else (firstPosition rest mode).map (fun i => i + 1)

/-- The group type of the entry at position `j` (`None` past the end). -/
def groupTypeAt (manifest : List NavCategoryInitializer) (j : Nat) : CategoryGroupType :=
  match manifest[j]? with
  | some e => e.groupType
  | none => CategoryGroupType.None

/-- The group type of the entry before position `j`, the entry before the first being taken to
have group type `None`. -/
def groupTypeBefore (manifest : List NavCategoryInitializer) (j : Nat) : CategoryGroupType :=
  match j with
  | 0 => CategoryGroupType.None
  | k + 1 => groupTypeAt manifest k

/-- The number of positions `j ≤ i` whose group type differs from that of entry `j - 1`. -/
def groupBoundariesUpTo (manifest : List NavCategoryInitializer) (i : Nat) : Nat :=
  ((List.range (i + 1)).filter
    (fun j => groupTypeAt manifest j != groupTypeBefore manifest j)).length

/-- The flat index by its reference definition: the position of the first entry with the mode
plus the number of group boundaries up to it, and -1 when the mode is absent. -/
def GetFlatIndex_reference (manifest : List NavCategoryInitializer) (mode : ViewMode) : Int :=
  match firstPosition manifest mode with
  | some i => (i : Int) + (groupBoundariesUpTo manifest i : Int)
  | none => -1

/-- The group boundaries among the first `i + 1` entries of a list that follows an entry of
group type `previous`; the recursion that `GetFlatIndex` performs on its captured `type`. -/
def boundariesFrom (previous : CategoryGroupType) (l : List NavCategoryInitializer)
    (i : Nat) : Nat :=
  match l, i with
  | [], _ => 0
  | x :: _, 0 => if x.groupType != previous then 1 else 0
  | x :: rest, n + 1 =>
    (if x.groupType != previous then 1 else 0) + boundariesFrom x.groupType rest n

/-- A four-entry manifest with two group types and a Graphing entry, on which the properties
below are exercised besides the manifest of the source. -/
def sampleManifest : List NavCategoryInitializer :=
  [ ⟨ViewMode.Standard, STANDARD_ID, WideCString.read "Standard", "StandardMode", "S",
      CategoryGroupType.Calculator, MyVirtualKey.Number1, some "1", SUPPORTS_ALL⟩,
    ⟨ViewMode.Graphing, GRAPHING_ID, WideCString.read "Graphing", "GraphingCalculatorMode", "G",
      CategoryGroupType.Calculator, MyVirtualKey.None, none, SUPPORTS_ALL⟩,
    ⟨ViewMode.Length, LENGTH_ID, WideCString.read "Length", "CategoryName_Length", "L",
      CategoryGroupType.Converter, MyVirtualKey.None, none, POSITIVE_ONLY⟩,
    ⟨ViewMode.Temperature, TEMPERATURE_ID, WideCString.read "Temperature",
      "CategoryName_Temperature", "T",
      CategoryGroupType.Converter, MyVirtualKey.Number2, none, SUPPORTS_NEGATIVE⟩ ]

/-- Platform services that resolve every user id and whose policy forbids graphing. -/
def graphingForbidden : PlatformServices :=
  ⟨fun id => some ⟨id⟩, fun _ _ _ => false⟩

/-- Platform services that resolve every user id and whose policy allows graphing. -/
def graphingAllowed : PlatformServices :=
  ⟨fun id => some ⟨id⟩, fun _ _ _ => true⟩

/-- Platform services that resolve no user. -/
def noUser : PlatformServices :=
  ⟨fun _ => none, fun _ _ _ => false⟩

end CalculatorApp

open CalculatorApp CalculatorApp.NavCategoryStates

/-! ## Lemmas on the search primitives -/

theorem find_if_eq_find {α : Type} (l : List α) (pred : α → Bool) :
    find_if l pred = l.find? pred := by
  induction l with
  | nil => rfl
  | cons x rest ih =>
    unfold find_if
    cases hx : pred x <;> simp [List.find?, hx, ih]

theorem find_if_none {α : Type} (l : List α) (pred : α → Bool)
    (h : ∀ x ∈ l, pred x = false) : find_if l pred = none := by
  rw [find_if_eq_find, List.find?_eq_none]
  intro x hx
  simp [h x hx]

theorem find_if_some_mem {α : Type} {l : List α} {pred : α → Bool} {x : α}
    (h : find_if l pred = some x) : x ∈ l ∧ pred x = true := by
  rw [find_if_eq_find] at h
  exact ⟨List.mem_of_find?_eq_some h, List.find?_some h⟩

theorem find_if_exists {α : Type} (l : List α) (pred : α → Bool)
    (h : ∃ x ∈ l, pred x = true) : ∃ y, find_if l pred = some y := by
  cases hf : find_if l pred with
  | some y => exact ⟨y, rfl⟩
  | none =>
    rw [find_if_eq_find, List.find?_eq_none] at hf
    obtain ⟨x, hx, hp⟩ := h
    exact absurd hp (hf x hx)

/-- The element at the first position that satisfies the predicate is what `find_if` returns. -/
theorem find_if_first {α : Type} (l : List α) (pred : α → Bool) (i : Nat) (hi : i < l.length)
    (hp : pred l[i] = true) (hfirst : ∀ j (hj : j < i), pred l[j] = false) :
    find_if l pred = some l[i] := by
  induction l generalizing i with
  | nil => simp at hi
  | cons x rest ih =>
    unfold find_if
    cases i with
    | zero => simp at hp; simp [hp]
    | succ k =>
      have h0 : pred x = false := hfirst 0 (by omega)
      simp only [h0, Bool.false_eq_true, if_false, List.getElem_cons_succ]
      apply ih k (by simpa using hi) (by simpa using hp)
      intro j hj
      have := hfirst (j + 1) (by omega)
      simpa using this

theorem find_if_st_none {α σ : Type} (l : List α) (pred : σ → α → Bool × σ) (s : σ)
    (h : ∀ t, ∀ x ∈ l, (pred t x).1 = false) : (find_if_st l pred s).1 = none := by
  induction l generalizing s with
  | nil => rfl
  | cons x rest ih =>
    unfold find_if_st
    have hx := h s x (List.mem_cons_self _ _)
    simp only [hx, Bool.false_eq_true, if_false]
    exact ih _ (fun t y hy => h t y (List.mem_cons_of_mem _ hy))

theorem any_of_iff {α : Type} (l : List α) (pred : α → Bool) :
    any_of l pred = true ↔ ∃ x ∈ l, pred x = true := by
  induction l with
  | nil => simp [any_of]
  | cons x rest ih =>
    unfold any_of
    cases hx : pred x <;> simp [hx, ih]

/-- Some element satisfies the predicate, so there is a first position that does. -/
theorem exists_first_position {α : Type} (l : List α) (pred : α → Bool)
    (h : ∃ x ∈ l, pred x = true) :
    ∃ (i : Nat) (hi : i < l.length), pred l[i] = true ∧ ∀ j (hj : j < i), pred l[j] = false := by
  induction l with
  | nil => simp at h
  | cons x rest ih =>
    cases hx : pred x with
    | true => exact ⟨0, by simp, by simpa using hx, fun j hj => by omega⟩
    | false =>
      have hrest : ∃ y ∈ rest, pred y = true := by
        obtain ⟨y, hy, hpy⟩ := h
        rcases List.mem_cons.mp hy with rfl | hy
        · rw [hx] at hpy; cases hpy
        · exact ⟨y, hy, hpy⟩
      obtain ⟨i, hi, hpi, hfirst⟩ := ih hrest
      refine ⟨i + 1, by simpa using hi, by simpa using hpi, ?_⟩
      intro j hj
      cases j with
      | zero => simpa using hx
      | succ k => simpa using hfirst k (by omega)

/-- In a list whose images under `f` are pairwise distinct, an element is at one position. -/
theorem position_unique_of_nodup_map {α β : Type} (f : α → β) (l : List α)
    (hnodup : (l.map f).Nodup) (i j : Nat) (hi : i < l.length) (hj : j < l.length)
    (h : f l[i] = f l[j]) : i = j := by
  have hi2 : i < (l.map f).length := by simpa using hi
  have hj2 : j < (l.map f).length := by simpa using hj
  exact (@List.Nodup.getElem_inj_iff _ _ hnodup i hi2 j hj2).mp (by simpa using h)

/-- The counter of `GetPosition` when the mode is first met at position `i`. -/
theorem find_if_st_position (l : List NavCategoryInitializer) (m : ViewMode) (k : Int) (i : Nat)
    (hi : i < l.length) (hp : l[i].viewMode = m)
    (hfirst : ∀ j (hj : j < i), l[j].viewMode ≠ m) :
    find_if_st l (fun (position : Int) x => (x.viewMode == m, position + 1)) k
      = (some l[i], k + i + 1) := by
  induction l generalizing i k with
  | nil => simp at hi
  | cons x rest ih =>
    unfold find_if_st
    cases i with
    | zero =>
      have : x.viewMode = m := by simpa using hp
      simp [this]
    | succ n =>
      have h0 : x.viewMode ≠ m := by simpa using hfirst 0 (by omega)
      simp only [beq_iff_eq, h0, if_false, List.getElem_cons_succ]
      rw [ih (k + 1) n (by simpa using hi) (by simpa using hp)
        (fun j hj => by simpa using hfirst (j + 1) (by omega))]
      simp only [Prod.mk.injEq, true_and]
      push_cast
      ring

/-- The recursion `boundariesFrom` counts the positions up to `i` whose group type differs
from the one before, the entry before the first having group type `previous`. -/
theorem boundariesFrom_eq_count (previous : CategoryGroupType)
    (l : List NavCategoryInitializer) (i : Nat) (hi : i < l.length) :
    ((List.range (i + 1)).filter (fun j => groupTypeAt l j !=
        (match j with
          | 0 => previous
          | k + 1 => groupTypeAt l k))).length = boundariesFrom previous l i := by
  induction l generalizing previous i with
  | nil => simp at hi
  | cons x rest ih =>
    cases i with
    | zero =>
      by_cases hx : x.groupType = previous <;>
        simp [boundariesFrom, groupTypeAt, List.range_succ, hx]
    | succ n =>
      have hn : n < rest.length := by simpa using hi
      rw [List.range_succ_eq_map, List.filter_cons, List.filter_map]
      have hcongr : (List.range (n + 1)).filter
            ((fun j => groupTypeAt (x :: rest) j !=
              (match j with
                | 0 => previous
                | k + 1 => groupTypeAt (x :: rest) k)) ∘ Nat.succ)
          = (List.range (n + 1)).filter (fun j => groupTypeAt rest j !=
              (match j with
                | 0 => x.groupType
                | k + 1 => groupTypeAt rest k)) := by
        apply List.filter_congr
        intro j _
        cases j with
        | zero => simp [groupTypeAt]
        | succ k => simp [groupTypeAt]
      rw [hcongr]
      have hlen := ih x.groupType n hn
      have hhead : groupTypeAt (x :: rest) 0 = x.groupType := by simp [groupTypeAt]
      simp only [hhead, boundariesFrom]
      split
      · simp [hlen]; omega
      · simp [hlen]

theorem groupBoundariesUpTo_eq (l : List NavCategoryInitializer) (i : Nat)
    (hi : i < l.length) :
    groupBoundariesUpTo l i = boundariesFrom CategoryGroupType.None l i := by
  rw [← boundariesFrom_eq_count CategoryGroupType.None l i hi]
  unfold groupBoundariesUpTo
  congr 2

/-- One more entry adds a boundary exactly when its group type differs from the entry before. -/
theorem boundariesFrom_succ (previous : CategoryGroupType) (l : List NavCategoryInitializer)
    (i : Nat) (hi : i + 1 < l.length) :
    boundariesFrom previous l (i + 1)
      = boundariesFrom previous l i
        + (if l[i + 1].groupType != l[i].groupType then 1 else 0) := by
  induction l generalizing previous i with
  | nil => simp at hi
  | cons x rest ih =>
    cases i with
    | zero =>
      cases rest with
      | nil => simp at hi
      | cons y tail => simp [boundariesFrom]
    | succ n =>
      have hn : n + 1 < rest.length := by simpa using hi
      simp only [boundariesFrom, List.getElem_cons_succ]
      rw [ih x.groupType n hn]
      omega

/-- The captured state of `GetFlatIndex` when the mode is first met at position `i`. -/
theorem find_if_st_flat (l : List NavCategoryInitializer) (m : ViewMode)
    (t : CategoryGroupType) (k : Int) (i : Nat) (hi : i < l.length)
    (hp : l[i].viewMode = m) (hfirst : ∀ j (hj : j < i), l[j].viewMode ≠ m) :
    find_if_st l (flatIndexStep m) (t, k)
      = (some l[i], (l[i].groupType, k + 1 + i + boundariesFrom t l i)) := by
  induction l generalizing t k i with
  | nil => simp at hi
  | cons x rest ih =>
    unfold find_if_st
    cases i with
    | zero =>
      have hx : x.viewMode = m := by simpa using hp
      by_cases hg : x.groupType = t <;> simp [flatIndexStep, boundariesFrom, hx, hg]
    | succ n =>
      have h0 : x.viewMode ≠ m := by simpa using hfirst 0 (by omega)
      have hn : n < rest.length := by simpa using hi
      have hrec := fun t2 k2 => ih t2 k2 n hn (by simpa using hp)
        (fun j hj => by simpa using hfirst (j + 1) (by omega))
      by_cases hg : x.groupType = t
      · simp only [flatIndexStep, hg, bne_self_eq_false, Bool.false_eq_true, if_false,
          beq_iff_eq, h0, decide_False, List.getElem_cons_succ]
        rw [hrec]
        simp only [boundariesFrom, hg, bne_self_eq_false, Bool.false_eq_true, if_false,
          Prod.mk.injEq, true_and]
        push_cast
        ring
      · have hg2 : (x.groupType != t) = true := by simpa using hg
        simp only [flatIndexStep, hg2, if_true, beq_iff_eq, h0, decide_False,
          Bool.false_eq_true, if_false, List.getElem_cons_succ]
        rw [hrec]
        simp only [boundariesFrom, hg2, if_true, Prod.mk.injEq, true_and]
        push_cast
        ring

/-- What `firstPosition` returns is the first position that carries the mode. -/
theorem firstPosition_eq_some (l : List NavCategoryInitializer) (m : ViewMode) (i : Nat)
    (hi : i < l.length) (hp : l[i].viewMode = m)
    (hfirst : ∀ j (hj : j < i), l[j].viewMode ≠ m) : firstPosition l m = some i := by
  induction l generalizing i with
  | nil => simp at hi
  | cons x rest ih =>
    unfold firstPosition
    cases i with
    | zero =>
      have hx : x.viewMode = m := by simpa using hp
      simp [hx]
    | succ n =>
      have h0 : x.viewMode ≠ m := by simpa using hfirst 0 (by omega)
      rw [if_neg h0, ih n (by simpa using hi) (by simpa using hp)
        (fun j hj => by simpa using hfirst (j + 1) (by omega))]
      rfl

theorem firstPosition_eq_none (l : List NavCategoryInitializer) (m : ViewMode)
    (h : ∀ e ∈ l, e.viewMode ≠ m) : firstPosition l m = none := by
  induction l with
  | nil => rfl
  | cons x rest ih =>
    unfold firstPosition
    rw [if_neg (h x (List.mem_cons_self _ _)),
      ih (fun e he => h e (List.mem_cons_of_mem _ he))]
    rfl

/-- `GetFlatIndex` of a mode first met at position `i`. -/
theorem GetFlatIndex_of_first (l : List NavCategoryInitializer) (m : ViewMode) (i : Nat)
    (hi : i < l.length) (hp : l[i].viewMode = m)
    (hfirst : ∀ j (hj : j < i), l[j].viewMode ≠ m) :
    GetFlatIndex l m = (i : Int) + (boundariesFrom CategoryGroupType.None l i : Int) := by
  simp only [GetFlatIndex, find_if_st_flat l m CategoryGroupType.None (-1) i hi hp hfirst]
  ring

/-- The captured counter of `GetIndexInGroup` when the mode is first met at position `i`, in an
entry of the group asked for. -/
theorem find_if_st_group (l : List NavCategoryInitializer) (m : ViewMode)
    (t : CategoryGroupType) (k : Int) (i : Nat) (hi : i < l.length)
    (hg : l[i].groupType = t) (hp : l[i].viewMode = m)
    (hfirst : ∀ j (hj : j < i), l[j].viewMode ≠ m) :
    find_if_st l (indexInGroupStep m t) k
      = (some l[i], k + 1 + (((l.take i).filter (fun e => e.groupType == t)).length : Int)) := by
  induction l generalizing k i with
  | nil => simp at hi
  | cons x rest ih =>
    unfold find_if_st
    cases i with
    | zero =>
      have hx : x.viewMode = m := by simpa using hp
      have hxg : x.groupType = t := by simpa using hg
      simp [indexInGroupStep, hx, hxg]
    | succ n =>
      have h0 : x.viewMode ≠ m := by simpa using hfirst 0 (by omega)
      have hn : n < rest.length := by simpa using hi
      have hrec := fun k2 => ih k2 n hn (by simpa using hg) (by simpa using hp)
        (fun j hj => by simpa using hfirst (j + 1) (by omega))
      by_cases hxg : x.groupType = t
      · simp only [indexInGroupStep, hxg, beq_self_eq_true, if_true, beq_iff_eq, h0,
          decide_False, Bool.false_eq_true, if_false, List.getElem_cons_succ]
        rw [hrec]
        simp only [List.take_succ_cons, List.filter_cons, hxg, beq_self_eq_true, if_true,
          List.length_cons, Prod.mk.injEq, true_and]
        push_cast
        ring
      · have hxg2 : (x.groupType == t) = false := by simpa using hxg
        simp only [indexInGroupStep, hxg2, Bool.false_eq_true, if_false,
          List.getElem_cons_succ]
        rw [hrec]
        simp [List.filter_cons, hxg2]

/-- An element that passes a filter sits, in the filtered list, at the number of passing
elements before it. -/
theorem filter_getElem_of_take {α : Type} (l : List α) (pred : α → Bool) (i : Nat)
    (hi : i < l.length) (hp : pred l[i] = true) :
    (l.filter pred)[((l.take i).filter pred).length]? = some l[i] := by
  have hsplit : l = l.take i ++ l[i] :: l.drop (i + 1) := by
    rw [← List.drop_eq_getElem_cons hi, List.take_append_drop]
  have hfilter : l.filter pred
      = (l.take i).filter pred ++ l[i] :: (l.drop (i + 1)).filter pred := by
    conv_lhs => rw [hsplit]
    rw [List.filter_append, List.filter_cons, if_pos hp]
  rw [hfilter, List.getElem?_append_right (le_refl _)]
  simp

/-! ## Lemmas on null-terminated strings -/

/-- Reading the text of a null-terminated string gives the string back. -/
theorem WideCString_read_text (c : WideCString) : WideCString.read c.text = c := by
  cases c with
  | mk text h =>
    simp only [WideCString.read, WideCString.mk.injEq]
    have htake : List.takeWhile (fun c => c != NUL) text.toList = text.toList := by
      rw [List.takeWhile_eq_self_iff]
      intro c hc
      exact List.all_eq_true.mp h c hc
    rw [htake]
    rfl

/-- A buffer that holds no `NUL` is read whole. -/
theorem WideCString_read_of_no_nul (buffer : String) (h : NUL ∉ buffer.toList) :
    (WideCString.read buffer).text = buffer := by
  have htake : List.takeWhile (fun c => c != NUL) buffer.toList = buffer.toList := by
    rw [List.takeWhile_eq_self_iff]
    intro c hc
    have hne : c ≠ NUL := fun hcn => h (hcn ▸ hc)
    simpa using hne
  simp only [WideCString.read, htake]
  rfl

theorem wcscmpChars_eq_zero (a b : List Char) : wcscmpChars a b = 0 ↔ a = b := by
  induction a generalizing b with
  | nil => cases b <;> simp [wcscmpChars]
  | cons x xs ih =>
    cases b with
    | nil => simp [wcscmpChars]
    | cons y ys =>
      by_cases hxy : x = y
      · simp [wcscmpChars, hxy, ih]
      · simp only [wcscmpChars, hxy, if_false, List.cons.injEq, false_and, iff_false]
        split <;> decide

/-- The result of `wcscmp` is 0 exactly when the two null-terminated strings are the same. -/
theorem wcscmp_eq_zero (a b : WideCString) : wcscmp a b = 0 ↔ a = b := by
  rw [wcscmp, wcscmpChars_eq_zero]
  cases a; cases b
  simp [String.ext_iff]

theorem wcscmp_beq_zero (a b : WideCString) : (wcscmp a b == 0) = true ↔ a = b := by
  rw [beq_iff_eq, wcscmp_eq_zero]

/-! ## Lemmas on the graphing gate -/

theorem IsGraphingModeEnabled_of_memo (services : PlatformServices) (s : NavState) (b : Bool)
    (h : s.enabled = some b) : IsGraphingModeEnabled services s = (b, s) := by
  simp [IsGraphingModeEnabled, h]

/-- An evaluation leaves the flag set to the value it returned. -/
theorem IsGraphingModeEnabled_memoizes (services : PlatformServices) (s : NavState) :
    (IsGraphingModeEnabled services s).2.enabled = some (IsGraphingModeEnabled services s).1 := by
  unfold IsGraphingModeEnabled
  cases h : s.enabled <;> simp [h]

/-- While the flag is not memoized, the gate evaluates the policy lambda. -/
theorem IsGraphingModeEnabled_of_fresh (services : PlatformServices) (s : NavState)
    (h : s.enabled = none) :
    (IsGraphingModeEnabled services s).1
      = computeGraphingModeEnabled services s.CurrentUserId := by
  simp [IsGraphingModeEnabled, h]

/-- A boxed `Serialize m` of a listed mode, in a manifest with pairwise distinct ids, is
deserialized to `m` unless `m` is `Graphing` and the gate answers false. -/
theorem Deserialize_of_Serialize (manifest : List NavCategoryInitializer)
    (services : PlatformServices) (s : NavState) (m : ViewMode)
    (hids : (manifest.map (fun e => e.serializationId)).Nodup)
    (hm : ∃ e ∈ manifest, e.viewMode = m) :
    (Deserialize manifest services (PlatformObject.boxedInt (Serialize manifest m)) s).1
      = if m = ViewMode.Graphing ∧ (IsGraphingModeEnabled services s).1 = false
        then ViewMode.None else m := by
  obtain ⟨e, he, hem⟩ := hm
  obtain ⟨a, ha⟩ := find_if_exists manifest (fun x => x.viewMode == m) ⟨e, he, by simp [hem]⟩
  obtain ⟨hal, hav⟩ := find_if_some_mem ha
  have hav : a.viewMode = m := by simpa using hav
  obtain ⟨b, hb⟩ := find_if_exists manifest
    (fun x => x.serializationId == a.serializationId) ⟨a, hal, by simp⟩
  obtain ⟨hbl, hbid⟩ := find_if_some_mem hb
  have hbid : b.serializationId = a.serializationId := by simpa using hbid
  have hba : b = a := List.inj_on_of_nodup_map hids hbl hal hbid
  subst hba
  simp only [Deserialize, Serialize, ha, PlatformObject.asBoxedInt, hb, hav]
  by_cases hg : m = ViewMode.Graphing
  · subst hg
    cases hen : (IsGraphingModeEnabled services s).1 <;> simp [hen]
  · simp [hg]

/-- A result `Graphing` of `Deserialize` needs the gate to answer true. -/
theorem Deserialize_ne_Graphing (manifest : List NavCategoryInitializer)
    (services : PlatformServices) (s : NavState) (obj : PlatformObject)
    (hoff : (IsGraphingModeEnabled services s).1 = false) :
    (Deserialize manifest services obj s).1 ≠ ViewMode.Graphing := by
  cases hb : obj.asBoxedInt with
  | none => simp [Deserialize, hb]
  | some n =>
    cases hf : find_if manifest (fun x => x.serializationId == n) with
    | none => simp [Deserialize, hb, hf]
    | some e =>
      by_cases hg : e.viewMode = ViewMode.Graphing
      · simp [Deserialize, hb, hf, hg, hoff]
      · simp [Deserialize, hb, hf, hg]

/-- A boxed id whose first matching entry is the Graphing one is deserialized by the gate. -/
theorem Deserialize_first_Graphing (manifest : List NavCategoryInitializer)
    (services : PlatformServices) (s : NavState) (n : Int) (i : Nat)
    (hi : i < manifest.length) (hid : manifest[i].serializationId = n)
    (hfirst : ∀ j (hj : j < i), manifest[j].serializationId ≠ n)
    (hg : manifest[i].viewMode = ViewMode.Graphing) :
    (Deserialize manifest services (PlatformObject.boxedInt n) s).1
      = if (IsGraphingModeEnabled services s).1 then ViewMode.Graphing else ViewMode.None := by
  have hf : find_if manifest (fun x => x.serializationId == n) = some manifest[i] :=
    find_if_first manifest _ i hi (by simpa using hid)
      (fun j hj => by simpa using hfirst j hj)
  simp [Deserialize, PlatformObject.asBoxedInt, hf, hg]

/-! ## Serialization -/

/-- Counterexample to C1 as stated: on the sample manifest, whose ids are pairwise distinct and
which lists `Graphing`, the flag is memoized as true at process start (no user resolved); after
`SetCurrentUser "student"` the policy of the resolved user reports graphing disabled, yet the
boxed `Serialize Graphing` is deserialized to `Graphing` and not to `ViewMode.None`. -/
theorem C1_counterexample :
    (sampleManifest.map (fun e => e.serializationId)).Nodup
    ∧ (∃ e ∈ sampleManifest, e.viewMode = ViewMode.Graphing)
    ∧ studentForbidden.GetFromId
        (SetCurrentUser "student"
          (IsViewModeEnabled studentForbidden ViewMode.Graphing NavState.initial).2).CurrentUserId
        = some ⟨"student"⟩
    ∧ studentForbidden.GetPolicyBoolean ⟨"student"⟩ "Education" "AllowGraphingCalculator" = false
    ∧ (Deserialize sampleManifest studentForbidden
        (PlatformObject.boxedInt (Serialize sampleManifest ViewMode.Graphing))
        (SetCurrentUser "student"
          (IsViewModeEnabled studentForbidden ViewMode.Graphing NavState.initial).2)).1
        = ViewMode.Graphing := by
  decide

/-- C1 (amended). Round trip of persistence: in a manifest whose serialization ids are pairwise
distinct, for a view mode `m` carried by some entry, `Deserialize` of the boxed `Serialize m` is
`m`, except that it is `ViewMode.None` when `m` is `Graphing` and the graphing gate is closed.
While the flag is not memoized the gate is the `AllowGraphingCalculator` policy of the user
resolved from the current user id, and it is open when no user is resolved; once the flag is
memoized the gate is the memoized value, whatever the policy reports. -/
theorem C1_serialize_then_deserialize (manifest : List NavCategoryInitializer)
    (services : PlatformServices) (s : NavState) (m : ViewMode)
    (hids : (manifest.map (fun e => e.serializationId)).Nodup)
    (hm : ∃ e ∈ manifest, e.viewMode = m) :
    (s.enabled = none →
      (∀ user, services.GetFromId s.CurrentUserId = some user →
        (Deserialize manifest services (PlatformObject.boxedInt (Serialize manifest m)) s).1
          = if m = ViewMode.Graphing
              ∧ services.GetPolicyBoolean user "Education" "AllowGraphingCalculator" = false
            then ViewMode.None else m)
      ∧ (services.GetFromId s.CurrentUserId = none →
        (Deserialize manifest services (PlatformObject.boxedInt (Serialize manifest m)) s).1
          = m))
    ∧ (∀ b : Bool, s.enabled = some b →
        (Deserialize manifest services (PlatformObject.boxedInt (Serialize manifest m)) s).1
          = if m = ViewMode.Graphing ∧ b = false then ViewMode.None else m) := by
  have hround := Deserialize_of_Serialize manifest services s m hids hm
  refine ⟨fun hfresh => ⟨?_, ?_⟩, ?_⟩
  · intro user huser
    rw [hround, IsGraphingModeEnabled_of_fresh services s hfresh]
    simp [computeGraphingModeEnabled, huser]
  · intro huser
    rw [hround, IsGraphingModeEnabled_of_fresh services s hfresh]
    simp [computeGraphingModeEnabled, huser]
  · intro b hb
    rw [hround, IsGraphingModeEnabled_of_memo services s b hb]

/-- Witness of C1 (amended): `Scientific` on the manifest of the source at process start, and
`Graphing` on the sample manifest at process start under a policy that forbids it. -/
theorem C1_serialize_then_deserialize_witness :
    (s_categoryManifest.map (fun e => e.serializationId)).Nodup
    ∧ (∃ e ∈ s_categoryManifest, e.viewMode = ViewMode.Scientific)
    ∧ (Deserialize s_categoryManifest noUser
        (PlatformObject.boxedInt (Serialize s_categoryManifest ViewMode.Scientific))
        NavState.initial).1 = ViewMode.Scientific
    ∧ (Deserialize sampleManifest graphingForbidden
        (PlatformObject.boxedInt (Serialize sampleManifest ViewMode.Graphing))
        NavState.initial).1 = ViewMode.None :=
  ⟨by decide, by decide,
   ((C1_serialize_then_deserialize s_categoryManifest noUser NavState.initial
      ViewMode.Scientific (by decide) (by decide)).1 (by decide)).2 (by decide),
   (((C1_serialize_then_deserialize sampleManifest graphingForbidden NavState.initial
      ViewMode.Graphing (by decide) (by decide)).1 (by decide)).1 ⟨""⟩ (by decide)).trans
      (by decide)⟩

/-- C7. `Deserialize` returns `ViewMode.None` for a stored value that is not a boxed integer and
for a boxed integer that is the serialization id of no manifest entry; on the manifest of the
source that is every integer other than 0 and 1, among them 999, -1 and 17. -/
theorem C7_deserialize_unknown_is_none (manifest : List NavCategoryInitializer)
    (services : PlatformServices) (s : NavState) :
    (∀ obj : PlatformObject, (∀ n : Int, obj ≠ PlatformObject.boxedInt n) →
        (Deserialize manifest services obj s).1 = ViewMode.None)
    ∧ (∀ n : Int, (∀ e ∈ manifest, e.serializationId ≠ n) →
        (Deserialize manifest services (PlatformObject.boxedInt n) s).1 = ViewMode.None)
    ∧ (∀ n : Int, n ≠ 0 → n ≠ 1 →
        (Deserialize s_categoryManifest services (PlatformObject.boxedInt n) s).1
          = ViewMode.None)
    ∧ (Deserialize s_categoryManifest services (PlatformObject.boxedInt 999) s).1
        = ViewMode.None
    ∧ (Deserialize s_categoryManifest services (PlatformObject.boxedInt (-1)) s).1
        = ViewMode.None
    ∧ (Deserialize s_categoryManifest services (PlatformObject.boxedInt 17) s).1
        = ViewMode.None := by
  have hmiss : ∀ (l : List NavCategoryInitializer) (n : Int),
      (∀ e ∈ l, e.serializationId ≠ n) →
      (Deserialize l services (PlatformObject.boxedInt n) s).1 = ViewMode.None := by
    intro l n hn
    have hf : find_if l (fun x => x.serializationId == n) = none :=
      find_if_none _ _ (fun x hx => by simpa using hn x hx)
    simp [Deserialize, PlatformObject.asBoxedInt, hf]
  have hshipped : ∀ n : Int, n ≠ 0 → n ≠ 1 →
      (Deserialize s_categoryManifest services (PlatformObject.boxedInt n) s).1
        = ViewMode.None := by
    intro n h0 h1
    apply hmiss
    intro e he
    simp only [s_categoryManifest, List.mem_cons, List.mem_singleton, List.not_mem_nil,
      or_false] at he
    rcases he with rfl | rfl
    · simpa [STANDARD_ID] using Ne.symm h0
    · simpa [SCIENTIFIC_ID] using Ne.symm h1
  refine ⟨?_, hmiss manifest, hshipped, hshipped 999 (by decide) (by decide),
    hshipped (-1) (by decide) (by decide), hshipped 17 (by decide) (by decide)⟩
  intro obj hobj
  cases obj with
  | null => simp [Deserialize, PlatformObject.asBoxedInt]
  | boxedInt v => exact absurd rfl (hobj v)
  | other c => simp [Deserialize, PlatformObject.asBoxedInt]

/-- Witness of C7: a manifest that lists only id 5, asked for the null reference, a string
object and the boxed id 6. -/
theorem C7_deserialize_unknown_is_none_witness :
    (Deserialize [⟨ViewMode.Length, 5, WideCString.read "Length", "LengthMode", "",
        CategoryGroupType.Converter,
        MyVirtualKey.None, none, false⟩] noUser
      (PlatformObject.other "Platform.String") NavState.initial).1 = ViewMode.None
    ∧ (Deserialize [⟨ViewMode.Length, 5, WideCString.read "Length", "LengthMode", "",
        CategoryGroupType.Converter,
        MyVirtualKey.None, none, false⟩] noUser
      (PlatformObject.boxedInt 6) NavState.initial).1 = ViewMode.None :=
  have h := C7_deserialize_unknown_is_none
    [⟨ViewMode.Length, 5, WideCString.read "Length", "LengthMode", "",
        CategoryGroupType.Converter,
        MyVirtualKey.None, none, false⟩] noUser NavState.initial
  ⟨h.1 (PlatformObject.other "Platform.String") (by intro n hn; cases hn),
   h.2.1 6 (by decide)⟩

/-- Counterexample to C8 as stated, on the sample manifest, which lists `Graphing` under id 17.
First, the flag is memoized as true at process start (no user resolved); after
`SetCurrentUser "student"` the policy of the resolved user reports disabled, yet the boxed 17 is
deserialized to `Graphing`. Second, the flag is memoized as false under a policy that forbids
graphing; when the policy later reports enabled, the boxed 17 is still deserialized to
`ViewMode.None`. -/
theorem C8_counterexample :
    (studentForbidden.GetFromId "student" = some ⟨"student"⟩
      ∧ studentForbidden.GetPolicyBoolean ⟨"student"⟩ "Education" "AllowGraphingCalculator"
          = false
      ∧ (Deserialize sampleManifest studentForbidden (PlatformObject.boxedInt 17)
          (SetCurrentUser "student"
            (IsViewModeEnabled studentForbidden ViewMode.Graphing NavState.initial).2)).1
          = ViewMode.Graphing)
    ∧ (graphingAllowed.GetFromId
          (IsViewModeEnabled graphingForbidden ViewMode.Graphing NavState.initial).2.CurrentUserId
          = some ⟨""⟩
      ∧ graphingAllowed.GetPolicyBoolean ⟨""⟩ "Education" "AllowGraphingCalculator" = true
      ∧ (Deserialize sampleManifest graphingAllowed (PlatformObject.boxedInt 17)
          (IsViewModeEnabled graphingForbidden ViewMode.Graphing NavState.initial).2).1
          = ViewMode.None) := by
  decide

/-- C8 (amended). For every manifest and every stored value, `Deserialize` never returns
`Graphing` while the graphing gate is closed, and a boxed id whose first matching entry is the
Graphing one gives `ViewMode.None` then and `Graphing` while the gate is open. While the flag is
not memoized the gate is the `AllowGraphingCalculator` policy of the user resolved from the
current user id, and it is open when no user is resolved; once the flag is memoized the gate is
the memoized value, whatever the policy reports. -/
theorem C8_deserialize_graphing_gate (manifest : List NavCategoryInitializer)
    (services : PlatformServices) (s : NavState) :
    (s.enabled = none → ∀ user, services.GetFromId s.CurrentUserId = some user →
        services.GetPolicyBoolean user "Education" "AllowGraphingCalculator" = false →
        ∀ obj : PlatformObject, (Deserialize manifest services obj s).1 ≠ ViewMode.Graphing)
    ∧ (s.enabled = some false →
        ∀ obj : PlatformObject, (Deserialize manifest services obj s).1 ≠ ViewMode.Graphing)
    ∧ (∀ (n : Int) (i : Nat) (hi : i < manifest.length),
        manifest[i].serializationId = n →
        (∀ j (hj : j < i), manifest[j].serializationId ≠ n) →
        manifest[i].viewMode = ViewMode.Graphing →
        (s.enabled = none →
          (∀ user, services.GetFromId s.CurrentUserId = some user →
            (Deserialize manifest services (PlatformObject.boxedInt n) s).1
              = if services.GetPolicyBoolean user "Education" "AllowGraphingCalculator"
                then ViewMode.Graphing else ViewMode.None)
          ∧ (services.GetFromId s.CurrentUserId = none →
            (Deserialize manifest services (PlatformObject.boxedInt n) s).1
              = ViewMode.Graphing))
        ∧ (∀ b : Bool, s.enabled = some b →
            (Deserialize manifest services (PlatformObject.boxedInt n) s).1
              = if b then ViewMode.Graphing else ViewMode.None)) := by
  refine ⟨?_, ?_, ?_⟩
  · intro hfresh user huser hpolicy obj
    apply Deserialize_ne_Graphing
    rw [IsGraphingModeEnabled_of_fresh services s hfresh]
    simp [computeGraphingModeEnabled, huser, hpolicy]
  · intro hmemo obj
    apply Deserialize_ne_Graphing
    rw [IsGraphingModeEnabled_of_memo services s false hmemo]
  · intro n i hi hid hfirst hg
    have hgate := Deserialize_first_Graphing manifest services s n i hi hid hfirst hg
    refine ⟨fun hfresh => ⟨?_, ?_⟩, ?_⟩
    · intro user huser
      rw [hgate, IsGraphingModeEnabled_of_fresh services s hfresh]
      simp [computeGraphingModeEnabled, huser]
    · intro huser
      rw [hgate, IsGraphingModeEnabled_of_fresh services s hfresh]
      simp [computeGraphingModeEnabled, huser]
    · intro b hb
      rw [hgate, IsGraphingModeEnabled_of_memo services s b hb]

/-- Witness of C8 (amended) on the sample manifest, which lists Graphing under id 17 at
position 1: at process start under a policy that forbids graphing the boxed 17 gives
`ViewMode.None`, with no resolvable user it gives `Graphing`, and with a flag memoized as false
it gives `ViewMode.None` under a policy that allows graphing. -/
theorem C8_deserialize_graphing_gate_witness :
    (Deserialize sampleManifest graphingForbidden (PlatformObject.boxedInt 17)
        NavState.initial).1 ≠ ViewMode.Graphing
    ∧ (Deserialize sampleManifest graphingForbidden (PlatformObject.boxedInt 17)
        NavState.initial).1 = ViewMode.None
    ∧ (Deserialize sampleManifest noUser (PlatformObject.boxedInt 17)
        NavState.initial).1 = ViewMode.Graphing
    ∧ (Deserialize sampleManifest graphingAllowed (PlatformObject.boxedInt 17)
        ⟨"student", some false⟩).1 = ViewMode.None :=
  ⟨(C8_deserialize_graphing_gate sampleManifest graphingForbidden NavState.initial).1
      (by decide) ⟨""⟩ (by decide) (by decide) (PlatformObject.boxedInt 17),
   ((((C8_deserialize_graphing_gate sampleManifest graphingForbidden NavState.initial).2.2
      17 1 (by decide) (by decide) (by decide) (by decide)).1 (by decide)).1 ⟨""⟩
      (by decide)).trans (by decide),
   (((C8_deserialize_graphing_gate sampleManifest noUser NavState.initial).2.2
      17 1 (by decide) (by decide) (by decide) (by decide)).1 (by decide)).2 (by decide),
   (((C8_deserialize_graphing_gate sampleManifest graphingAllowed
      ⟨"student", some false⟩).2.2
      17 1 (by decide) (by decide) (by decide) (by decide)).2 false (by decide)).trans
      (by decide)⟩

/-! ## Sentinels -/

/-- Counterexample to C9 as stated: the counted string made of "Standard", a `NUL` and "xyz" is
the friendly name of no entry of the manifest of the source, yet `GetViewModeForFriendlyName`
returns `Standard` for it and not `ViewMode.None`, because `wcscmp` reads it up to the `NUL`. -/
theorem C9_counterexample :
    (∀ e ∈ s_categoryManifest, e.friendlyName.text ≠ "Standard\x00xyz")
    ∧ GetViewModeForFriendlyName s_categoryManifest "Standard\x00xyz" = ViewMode.Standard := by
  decide

/-- C9 (amended). Sentinel on miss: for a view mode that no manifest entry carries, `Serialize`,
`GetPosition`, `GetIndex`, `GetFlatIndex` and `GetIndexInGroup` (for every group type) return
-1, `GetGroupType` returns `CategoryGroupType.None`, `GetFriendlyName` returns "None" and
`IsValidViewMode` is false; a name whose text up to its first `NUL` is the friendly name of no
entry (for a name that holds no `NUL`: a name that no entry carries) maps to `ViewMode.None`,
and so does a virtual key that no entry carries. Every lookup is a total function: none of them
fails. -/
theorem C9_sentinel_on_miss (manifest : List NavCategoryInitializer) :
    (∀ m : ViewMode, (∀ e ∈ manifest, e.viewMode ≠ m) →
      Serialize manifest m = -1
      ∧ GetPosition manifest m = -1
      ∧ GetIndex manifest m = -1
      ∧ GetFlatIndex manifest m = -1
      ∧ (∀ t : CategoryGroupType, GetIndexInGroup manifest m t = -1)
      ∧ GetGroupType manifest m = CategoryGroupType.None
      ∧ GetFriendlyName manifest m = "None"
      ∧ IsValidViewMode manifest m = false)
    ∧ (∀ name : String, (∀ e ∈ manifest, e.friendlyName ≠ WideCString.read name) →
        GetViewModeForFriendlyName manifest name = ViewMode.None)
    ∧ (∀ name : String, NUL ∉ name.toList → (∀ e ∈ manifest, e.friendlyName.text ≠ name) →
        GetViewModeForFriendlyName manifest name = ViewMode.None)
    ∧ (∀ key : MyVirtualKey, (∀ e ∈ manifest, e.virtualKey ≠ key) →
        GetViewModeForVirtualKey manifest key = ViewMode.None) := by
  have hname : ∀ name : String, (∀ e ∈ manifest, e.friendlyName ≠ WideCString.read name) →
      GetViewModeForFriendlyName manifest name = ViewMode.None := by
    intro name hname
    have hf : find_if manifest
        (fun x => wcscmp x.friendlyName (WideCString.read name) == 0) = none :=
      find_if_none _ _ (fun x hx => by
        have hne := hname x hx
        cases hc : wcscmp x.friendlyName (WideCString.read name) == 0 with
        | false => rfl
        | true => exact absurd ((wcscmp_beq_zero _ _).mp hc) hne)
    simp [GetViewModeForFriendlyName, hf]
  refine ⟨?_, hname, ?_, ?_⟩
  · intro m hm
    have hf : find_if manifest (fun x => x.viewMode == m) = none :=
      find_if_none _ _ (fun x hx => by simpa using hm x hx)
    have hpos : GetPosition manifest m = -1 := by
      have h := find_if_st_none manifest
        (fun (position : Int) x => (x.viewMode == m, position + 1)) 0
        (fun _ x hx => by simpa using hm x hx)
      simp [GetPosition, h]
    have hflat : GetFlatIndex manifest m = -1 := by
      have h := find_if_st_none manifest (flatIndexStep m) (CategoryGroupType.None, -1)
        (fun t x hx => by
          have := hm x hx
          unfold flatIndexStep
          split <;> simpa using this)
      simp [GetFlatIndex, h]
    have hgrp : ∀ t : CategoryGroupType, GetIndexInGroup manifest m t = -1 := by
      intro t
      have h := find_if_st_none manifest (indexInGroupStep m t) (-1)
        (fun k x hx => by
          have := hm x hx
          unfold indexInGroupStep
          split
          · simpa using this
          · rfl)
      simp [GetIndexInGroup, h]
    refine ⟨?_, hpos, ?_, hflat, hgrp, ?_, ?_, ?_⟩
    · simp [Serialize, hf]
    · simp [GetIndex, hpos]
    · simp [GetGroupType, hf]
    · simp [GetFriendlyName, hf]
    · simp [IsValidViewMode, hf]
  · intro name hnul hcarry
    apply hname
    intro e he heq
    apply hcarry e he
    rw [heq, WideCString_read_of_no_nul name hnul]
  · intro key hkey
    have hf : find_if manifest (fun x => x.virtualKey == key) = none :=
      find_if_none _ _ (fun x hx => by simpa using hkey x hx)
    simp [GetViewModeForVirtualKey, hf]

/-- Witness of C9 (amended) on the manifest of the source: `Programmer`, the name "Date", the
name made of "Date", a `NUL` and "Standard", and the key with code 51 are carried by no
entry. -/
theorem C9_sentinel_on_miss_witness :
    Serialize s_categoryManifest ViewMode.Programmer = -1
    ∧ GetFlatIndex s_categoryManifest ViewMode.Programmer = -1
    ∧ GetViewModeForFriendlyName s_categoryManifest "Date\x00Standard" = ViewMode.None
    ∧ GetViewModeForFriendlyName s_categoryManifest "Date" = ViewMode.None
    ∧ GetViewModeForVirtualKey s_categoryManifest ⟨51⟩ = ViewMode.None :=
  have h := C9_sentinel_on_miss s_categoryManifest
  have hm := h.1 ViewMode.Programmer (by decide)
  ⟨hm.1, hm.2.2.2.1, h.2.1 "Date\x00Standard" (by decide),
   h.2.2.1 "Date" (by decide) (by decide), h.2.2.2 ⟨51⟩ (by decide)⟩

/-! ## Positions -/

/-- C2. For a view mode `m` carried by some entry, `GetPosition m` is the 1-based position of
the first entry with that mode (the entry at 0-based `i` carries `m`, none before it does, and
the result is `i + 1`), `GetIndex m` is `i`, and `GetPosition m = GetIndex m + 1`. `GetIndex m`
is `max (-1) (GetPosition m - 1)` throughout. For a view mode carried by no entry both
functions return -1. -/
theorem C2_position_and_index (manifest : List NavCategoryInitializer) (m : ViewMode) :
    ((∃ e ∈ manifest, e.viewMode = m) →
      ∃ (i : Nat) (hi : i < manifest.length),
        manifest[i].viewMode = m
        ∧ (∀ j (hj : j < i), manifest[j].viewMode ≠ m)
        ∧ GetPosition manifest m = (i : Int) + 1
        ∧ GetIndex manifest m = (i : Int)
        ∧ GetPosition manifest m = GetIndex manifest m + 1)
    ∧ GetIndex manifest m = max (-1) (GetPosition manifest m - 1)
    ∧ ((∀ e ∈ manifest, e.viewMode ≠ m) →
        GetPosition manifest m = -1 ∧ GetIndex manifest m = -1) := by
  refine ⟨?_, rfl, ?_⟩
  · intro hm
    obtain ⟨i, hi, hpi, hfirst⟩ := exists_first_position manifest (fun x => x.viewMode == m)
      (by obtain ⟨e, he, hem⟩ := hm; exact ⟨e, he, by simp [hem]⟩)
    have hpi : manifest[i].viewMode = m := by simpa using hpi
    have hfirst : ∀ j (hj : j < i), manifest[j].viewMode ≠ m :=
      fun j hj => by simpa using hfirst j hj
    have hpos : GetPosition manifest m = (i : Int) + 1 := by
      simp [GetPosition, find_if_st_position manifest m 0 i hi hpi hfirst]
    have hidx : GetIndex manifest m = (i : Int) := by
      simp only [GetIndex, hpos]
      omega
    exact ⟨i, hi, hpi, hfirst, hpos, hidx, by rw [hpos, hidx]⟩
  · intro hm
    have hpos : GetPosition manifest m = -1 := by
      have h := find_if_st_none manifest
        (fun (position : Int) x => (x.viewMode == m, position + 1)) 0
        (fun _ x hx => by simpa using hm x hx)
      simp [GetPosition, h]
    exact ⟨hpos, by simp [GetIndex, hpos]⟩

/-- Witness of C2 on the manifest of the source: `Scientific` is listed, `Date` is not. -/
theorem C2_position_and_index_witness :
    (∃ (i : Nat) (hi : i < s_categoryManifest.length),
        s_categoryManifest[i].viewMode = ViewMode.Scientific
        ∧ (∀ j (hj : j < i), s_categoryManifest[j].viewMode ≠ ViewMode.Scientific)
        ∧ GetPosition s_categoryManifest ViewMode.Scientific = (i : Int) + 1
        ∧ GetIndex s_categoryManifest ViewMode.Scientific = (i : Int)
        ∧ GetPosition s_categoryManifest ViewMode.Scientific
            = GetIndex s_categoryManifest ViewMode.Scientific + 1)
    ∧ (GetPosition s_categoryManifest ViewMode.Date = -1
        ∧ GetIndex s_categoryManifest ViewMode.Date = -1) :=
  ⟨(C2_position_and_index s_categoryManifest ViewMode.Scientific).1 (by decide),
   (C2_position_and_index s_categoryManifest ViewMode.Date).2.2 (by decide)⟩

/-! ## Classification -/

/-- C6. In a manifest in which each view mode occurs at most once, no view mode is both a
calculator mode and a converter mode. -/
theorem C6_calculator_converter_exclusive (manifest : List NavCategoryInitializer)
    (m : ViewMode) (hnodup : (manifest.map (fun e => e.viewMode)).Nodup) :
    ¬ (NavCategory.IsCalculatorViewMode manifest m = true
        ∧ NavCategory.IsConverterViewMode manifest m = true) := by
  rintro ⟨hcalc, hconv⟩
  simp only [NavCategory.IsCalculatorViewMode, Bool.and_eq_true] at hcalc
  obtain ⟨a, ha, hap⟩ := (any_of_iff _ _).mp hcalc.2
  obtain ⟨b, hb, hbp⟩ := (any_of_iff _ _).mp hconv
  simp only [Bool.and_eq_true, beq_iff_eq] at hap hbp
  have hab : a = b := List.inj_on_of_nodup_map hnodup ha hb (hap.1.trans hbp.1.symm)
  subst hab
  rw [hap.2] at hbp
  exact absurd hbp.2 (by decide)

/-- Witness of C6 on the manifest of the source, whose view modes are pairwise distinct. -/
theorem C6_calculator_converter_exclusive_witness :
    (s_categoryManifest.map (fun e => e.viewMode)).Nodup
    ∧ ¬ (NavCategory.IsCalculatorViewMode s_categoryManifest ViewMode.Standard = true
        ∧ NavCategory.IsConverterViewMode s_categoryManifest ViewMode.Standard = true) :=
  ⟨by decide,
   C6_calculator_converter_exclusive s_categoryManifest ViewMode.Standard (by decide)⟩

/-! ## Accelerators -/

/-- The loop of `GetCategoryAcceleratorKeys` appends, to what the vector holds, the accelerators
other than `None` in manifest order. -/
theorem appendAcceleratorKeys_eq (manifest : List NavCategoryInitializer)
    (accelerators : List MyVirtualKey) :
    appendAcceleratorKeys manifest accelerators
      = accelerators
        ++ (manifest.filter (fun e => e.virtualKey != MyVirtualKey.None)).map
            (fun e => e.virtualKey) := by
  induction manifest generalizing accelerators with
  | nil => simp [appendAcceleratorKeys]
  | cons x rest ih =>
    unfold appendAcceleratorKeys
    by_cases hx : x.virtualKey = MyVirtualKey.None
    · simp [hx, ih]
    · simp [hx, ih]

/-- C10. Whatever a non-null output list holds before the call, after
`GetCategoryAcceleratorKeys` it holds the accelerators of the manifest entries whose accelerator
is not `MyVirtualKey.None`, one per such entry and in manifest order, and nothing else; a null
list stays null. On the manifest of the source the list is `Number1, Number2`, without a
repeated key; more generally no key is repeated when no accelerator other than `None` is shared
by two entries. -/
theorem C10_accelerator_keys (manifest : List NavCategoryInitializer)
    (initial : List MyVirtualKey) :
    GetCategoryAcceleratorKeys manifest (some initial)
      = some ((manifest.filter (fun e => e.virtualKey != MyVirtualKey.None)).map
          (fun e => e.virtualKey))
    ∧ GetCategoryAcceleratorKeys manifest none = none
    ∧ (∃ keys, GetCategoryAcceleratorKeys s_categoryManifest (some initial) = some keys
        ∧ keys = [MyVirtualKey.Number1, MyVirtualKey.Number2] ∧ keys.Nodup)
    ∧ (manifest.Pairwise
          (fun a b => a.virtualKey ≠ MyVirtualKey.None → a.virtualKey ≠ b.virtualKey) →
        ∀ keys, GetCategoryAcceleratorKeys manifest (some initial) = some keys → keys.Nodup) := by
  have hgen : ∀ l : List NavCategoryInitializer, GetCategoryAcceleratorKeys l (some initial)
      = some ((l.filter (fun e => e.virtualKey != MyVirtualKey.None)).map
          (fun e => e.virtualKey)) := by
    intro l
    simp [GetCategoryAcceleratorKeys, appendAcceleratorKeys_eq]
  refine ⟨hgen manifest, rfl, ?_, ?_⟩
  · exact ⟨[MyVirtualKey.Number1, MyVirtualKey.Number2], by rw [hgen]; decide, rfl,
      by decide⟩
  · intro hpair keys hkeys
    rw [hgen] at hkeys
    cases hkeys
    rw [List.Nodup, List.pairwise_map]
    refine List.Pairwise.imp_of_mem ?_ (List.Pairwise.filter _ hpair)
    intro a b ha _ hab
    have hane : a.virtualKey ≠ MyVirtualKey.None := by
      simpa using (List.mem_filter.mp ha).2
    exact hab hane

/-- Witness of C10 on a manifest with two entries without accelerator, from a list that held
two keys before the call. -/
theorem C10_accelerator_keys_witness :
    sampleManifest.Pairwise
      (fun a b => a.virtualKey ≠ MyVirtualKey.None → a.virtualKey ≠ b.virtualKey)
    ∧ GetCategoryAcceleratorKeys sampleManifest (some [⟨65⟩, ⟨65⟩])
        = some [MyVirtualKey.Number1, MyVirtualKey.Number2]
    ∧ [MyVirtualKey.Number1, MyVirtualKey.Number2].Nodup :=
  have h := C10_accelerator_keys sampleManifest [⟨65⟩, ⟨65⟩]
  ⟨by decide, by rw [h.1]; decide,
   h.2.2.2 (by decide) [MyVirtualKey.Number1, MyVirtualKey.Number2] (by rw [h.1]; decide)⟩

/-! ## Flat index and index in group -/

/-- C4. `GetFlatIndex` equals its reference definition: for a view mode whose first entry is at
0-based position `i` it is `i` plus the number of positions `j ≤ i` whose group type differs
from that of entry `j - 1` (the entry before the first counting as group type `None`), and it is
-1 for a view mode carried by no entry. On the manifest of the source `Standard` has flat index
1 and `Scientific` has flat index 2. -/
theorem C4_flat_index_reference (manifest : List NavCategoryInitializer) (m : ViewMode) :
    GetFlatIndex manifest m = GetFlatIndex_reference manifest m
    ∧ (∀ (i : Nat) (hi : i < manifest.length), manifest[i].viewMode = m →
        (∀ j (hj : j < i), manifest[j].viewMode ≠ m) →
        GetFlatIndex manifest m = (i : Int) + (groupBoundariesUpTo manifest i : Int))
    ∧ ((∀ e ∈ manifest, e.viewMode ≠ m) → GetFlatIndex manifest m = -1)
    ∧ GetFlatIndex s_categoryManifest ViewMode.Standard = 1
    ∧ GetFlatIndex s_categoryManifest ViewMode.Scientific = 2 := by
  have hfound : ∀ (i : Nat) (hi : i < manifest.length), manifest[i].viewMode = m →
      (∀ j (hj : j < i), manifest[j].viewMode ≠ m) →
      GetFlatIndex manifest m = (i : Int) + (groupBoundariesUpTo manifest i : Int) := by
    intro i hi hp hfirst
    rw [GetFlatIndex_of_first manifest m i hi hp hfirst, groupBoundariesUpTo_eq manifest i hi]
  have hmiss : (∀ e ∈ manifest, e.viewMode ≠ m) → GetFlatIndex manifest m = -1 := by
    intro hm
    have h := find_if_st_none manifest (flatIndexStep m) (CategoryGroupType.None, -1)
      (fun t x hx => by
        have := hm x hx
        unfold flatIndexStep
        split <;> simpa using this)
    simp [GetFlatIndex, h]
  refine ⟨?_, hfound, hmiss, by decide, by decide⟩
  by_cases hm : ∃ e ∈ manifest, e.viewMode = m
  · obtain ⟨i, hi, hpi, hfirst⟩ := exists_first_position manifest (fun x => x.viewMode == m)
      (by obtain ⟨e, he, hem⟩ := hm; exact ⟨e, he, by simp [hem]⟩)
    have hpi : manifest[i].viewMode = m := by simpa using hpi
    have hfirst : ∀ j (hj : j < i), manifest[j].viewMode ≠ m :=
      fun j hj => by simpa using hfirst j hj
    rw [hfound i hi hpi hfirst]
    simp [GetFlatIndex_reference, firstPosition_eq_some manifest m i hi hpi hfirst]
  · have hm : ∀ e ∈ manifest, e.viewMode ≠ m := fun e he hem => hm ⟨e, he, hem⟩
    rw [hmiss hm]
    simp [GetFlatIndex_reference, firstPosition_eq_none manifest m hm]

/-- Witness of C4: in the sample manifest `Length` is first met at position 2, after the two
boundaries at positions 0 and 2, so that its flat index is 4. -/
theorem C4_flat_index_reference_witness :
    groupBoundariesUpTo sampleManifest 2 = 2
    ∧ GetFlatIndex sampleManifest ViewMode.Length
        = ((2 : Nat) : Int) + (groupBoundariesUpTo sampleManifest 2 : Int)
    ∧ GetFlatIndex sampleManifest ViewMode.Programmer = -1 :=
  ⟨by decide,
   (C4_flat_index_reference sampleManifest ViewMode.Length).2.1 2 (by decide) (by decide)
     (by decide),
   (C4_flat_index_reference sampleManifest ViewMode.Programmer).2.2.1 (by decide)⟩

/-- C3. In a manifest in which each view mode occurs at most once, for an entry `a` and the
entry `b` directly after it, the flat index of `b` is greater than that of `a`; the difference
is at least 2 exactly when the group type of `b` differs from that of `a`, and it is 1
otherwise. -/
theorem C3_flat_index_increasing (manifest : List NavCategoryInitializer)
    (hnodup : (manifest.map (fun e => e.viewMode)).Nodup) (i : Nat)
    (hi : i + 1 < manifest.length) :
    GetFlatIndex manifest manifest[i].viewMode < GetFlatIndex manifest manifest[i + 1].viewMode
    ∧ (2 ≤ GetFlatIndex manifest manifest[i + 1].viewMode
            - GetFlatIndex manifest manifest[i].viewMode
        ↔ manifest[i + 1].groupType ≠ manifest[i].groupType)
    ∧ (manifest[i + 1].groupType = manifest[i].groupType →
        GetFlatIndex manifest manifest[i + 1].viewMode
          - GetFlatIndex manifest manifest[i].viewMode = 1) := by
  have hfirst : ∀ (p : Nat) (hp : p < manifest.length) (j : Nat) (hj : j < p),
      manifest[j].viewMode ≠ manifest[p].viewMode := by
    intro p hp j hj heq
    have := position_unique_of_nodup_map (fun e => e.viewMode) manifest hnodup j p
      (by omega) hp heq
    omega
  have ha := GetFlatIndex_of_first manifest manifest[i].viewMode i (by omega) rfl
    (hfirst i (by omega))
  have hb := GetFlatIndex_of_first manifest manifest[i + 1].viewMode (i + 1) hi rfl
    (hfirst (i + 1) hi)
  rw [ha, hb, boundariesFrom_succ CategoryGroupType.None manifest i hi]
  by_cases hg : manifest[i + 1].groupType = manifest[i].groupType
  · simp only [hg, bne_self_eq_false, Bool.false_eq_true, if_false, ne_eq, not_true_eq_false,
      iff_false, forall_true_left]
    push_cast
    omega
  · have hg2 : (manifest[i + 1].groupType != manifest[i].groupType) = true := by simpa using hg
    simp only [hg2, if_true, ne_eq, hg, not_false_eq_true, iff_true, false_implies, and_true]
    push_cast
    omega

/-- Witness of C3: on the manifest of the source from `Standard` to `Scientific` (same group),
and on the sample manifest from `Graphing` to `Length` (a group boundary). -/
theorem C3_flat_index_increasing_witness :
    (s_categoryManifest.map (fun e => e.viewMode)).Nodup
    ∧ GetFlatIndex s_categoryManifest ViewMode.Standard
        < GetFlatIndex s_categoryManifest ViewMode.Scientific
    ∧ (sampleManifest.map (fun e => e.viewMode)).Nodup
    ∧ (2 ≤ GetFlatIndex sampleManifest ViewMode.Length
          - GetFlatIndex sampleManifest ViewMode.Graphing
        ↔ CategoryGroupType.Converter ≠ CategoryGroupType.Calculator) :=
  ⟨by decide, (C3_flat_index_increasing s_categoryManifest (by decide) 0 (by decide)).1,
   by decide, (C3_flat_index_increasing sampleManifest (by decide) 1 (by decide)).2.1⟩

/-- C5. In a manifest in which each view mode occurs at most once, for the view mode of the
entry at position `i` and a group type `t`: when the entry has group type `t`,
`GetIndexInGroup` is the 0-based position of that entry among the entries of group type `t`
(the number of such entries before it, which is where the entry sits in the manifest filtered
by `t`); when the entry has another group type it is -1. For a view mode carried by no entry it
is -1. -/
theorem C5_index_in_group (manifest : List NavCategoryInitializer)
    (hnodup : (manifest.map (fun e => e.viewMode)).Nodup) (t : CategoryGroupType) :
    (∀ (i : Nat) (hi : i < manifest.length),
      (manifest[i].groupType = t →
        GetIndexInGroup manifest manifest[i].viewMode t
          = (((manifest.take i).filter (fun e => e.groupType == t)).length : Int)
        ∧ (manifest.filter (fun e => e.groupType == t))[
            ((manifest.take i).filter (fun e => e.groupType == t)).length]?
          = some manifest[i])
      ∧ (manifest[i].groupType ≠ t →
        GetIndexInGroup manifest manifest[i].viewMode t = -1))
    ∧ (∀ m : ViewMode, (∀ e ∈ manifest, e.viewMode ≠ m) →
        GetIndexInGroup manifest m t = -1) := by
  have hfirst : ∀ (p : Nat) (hp : p < manifest.length) (j : Nat) (hj : j < p),
      manifest[j].viewMode ≠ manifest[p].viewMode := by
    intro p hp j hj heq
    have := position_unique_of_nodup_map (fun e => e.viewMode) manifest hnodup j p
      (by omega) hp heq
    omega
  refine ⟨fun i hi => ⟨?_, ?_⟩, ?_⟩
  · intro hg
    refine ⟨?_, filter_getElem_of_take manifest _ i hi (by simpa using hg)⟩
    simp only [GetIndexInGroup,
      find_if_st_group manifest manifest[i].viewMode t (-1) i hi hg rfl (hfirst i hi)]
    ring
  · intro hg
    have h := find_if_st_none manifest (indexInGroupStep manifest[i].viewMode t) (-1)
      (fun k x hx => by
        unfold indexInGroupStep
        split
        · rename_i hxg
          have hxg : x.groupType = t := by simpa using hxg
          have hne : x.viewMode ≠ manifest[i].viewMode := by
            intro heq
            have hxi : x = manifest[i] :=
              List.inj_on_of_nodup_map hnodup hx (List.getElem_mem hi) heq
            exact hg (hxi ▸ hxg)
          simpa using hne
        · rfl)
    simp [GetIndexInGroup, h]
  · intro m hm
    have h := find_if_st_none manifest (indexInGroupStep m t) (-1)
      (fun k x hx => by
        have := hm x hx
        unfold indexInGroupStep
        split
        · simpa using this
        · rfl)
    simp [GetIndexInGroup, h]

/-- Witness of C5 on the sample manifest: `Temperature` is the second converter, position 1 in
its group, and is not a calculator. -/
theorem C5_index_in_group_witness :
    (sampleManifest.map (fun e => e.viewMode)).Nodup
    ∧ GetIndexInGroup sampleManifest ViewMode.Temperature CategoryGroupType.Converter = 1
    ∧ GetIndexInGroup sampleManifest ViewMode.Temperature CategoryGroupType.Calculator = -1 :=
  ⟨by decide,
   ((C5_index_in_group sampleManifest (by decide) CategoryGroupType.Converter).1 3
      (by decide)).1 (by decide) |>.1,
   ((C5_index_in_group sampleManifest (by decide) CategoryGroupType.Calculator).1 3
      (by decide)).2 (by decide)⟩

/-! ## The manifest of the source -/

/-- C11. On the manifest of the source, whatever the platform services and the state:
`Serialize Standard` is 0, `Deserialize` of the boxed 1 is `Scientific`, `GetPosition Scientific`
is 2, `GetIndex Scientific` is 1 and the key `Number1` maps to `Standard`. -/
theorem C11_shipped_manifest_scenario (services : PlatformServices) (s : NavState) :
    s_categoryManifest.map
        (fun e => (e.viewMode, e.serializationId, e.virtualKey))
      = [(ViewMode.Standard, 0, MyVirtualKey.Number1),
         (ViewMode.Scientific, 1, MyVirtualKey.Number2)]
    ∧ Serialize s_categoryManifest ViewMode.Standard = 0
    ∧ (Deserialize s_categoryManifest services (PlatformObject.boxedInt 1) s).1
        = ViewMode.Scientific
    ∧ GetPosition s_categoryManifest ViewMode.Scientific = 2
    ∧ GetIndex s_categoryManifest ViewMode.Scientific = 1
    ∧ GetViewModeForVirtualKey s_categoryManifest MyVirtualKey.Number1 = ViewMode.Standard := by
  refine ⟨by decide, by decide, ?_, by decide, by decide, by decide⟩
  have hf : find_if s_categoryManifest (fun e => e.serializationId == 1)
      = some ⟨ViewMode.Scientific, SCIENTIFIC_ID, WideCString.read "Scientific",
          "ScientificMode", "\uF196",
          CategoryGroupType.Calculator, MyVirtualKey.Number2, some "2", SUPPORTS_ALL⟩ := by
    decide
  simp [Deserialize, PlatformObject.asBoxedInt, hf]

/-- C14. Well-formedness of the manifest of the source: its serialization ids are pairwise
distinct, and so are its friendly names, its view modes and its accelerator keys; the id of
every entry is the constant defined for its mode, 0 for `Standard` and 1 for `Scientific`. -/
theorem C14_shipped_manifest_well_formed :
    (s_categoryManifest.map (fun e => e.serializationId)).Nodup
    ∧ (s_categoryManifest.map (fun e => e.friendlyName)).Nodup
    ∧ (s_categoryManifest.map (fun e => e.viewMode)).Nodup
    ∧ (s_categoryManifest.map (fun e => e.virtualKey)).Nodup
    ∧ s_categoryManifest.map (fun e => some e.serializationId)
        = s_categoryManifest.map (fun e => serializationIdConstant e.viewMode)
    ∧ s_categoryManifest.map (fun e => (e.viewMode, e.serializationId))
        = [(ViewMode.Standard, 0), (ViewMode.Scientific, 1)]
    ∧ STANDARD_ID = 0 ∧ SCIENTIFIC_ID = 1 := by
  refine ⟨by decide, by decide, by decide, by decide, by decide, by decide, rfl, rfl⟩

/-! ## The graphing policy and its memoized flag -/

/-- No call changes a flag that is set. -/
theorem NavCall_run_keeps_memo (manifest : List NavCategoryInitializer) (call : NavCall)
    (s : NavState) (b : Bool) (h : s.enabled = some b) :
    (call.run manifest s).enabled = some b := by
  cases call with
  | setCurrentUser userId => simpa [NavCall.run, SetCurrentUser] using h
  | isViewModeEnabled services mode =>
    by_cases hm : mode = ViewMode.Graphing
    · simp [NavCall.run, IsViewModeEnabled, hm, IsGraphingModeEnabled_of_memo services s b h, h]
    · simp [NavCall.run, IsViewModeEnabled, hm, h]
  | deserialize services obj =>
    simp only [NavCall.run, Deserialize, IsGraphingModeEnabled_of_memo services s b h]
    split
    · split
      · split <;> exact h
      · exact h
    · exact h

theorem runCalls_keeps_memo (manifest : List NavCategoryInitializer) (calls : List NavCall)
    (s : NavState) (b : Bool) (h : s.enabled = some b) :
    (runCalls manifest calls s).enabled = some b := by
  induction calls generalizing s with
  | nil => exact h
  | cons call rest ih =>
    unfold runCalls
    exact ih _ (NavCall_run_keeps_memo manifest call s b h)

/-- Counterexample to C12 as stated: with services that resolve only the user "student",
whose policy forbids graphing, `IsViewModeEnabled Graphing` is first evaluated at process start
(no user resolved, so the flag is memoized as true); after `SetCurrentUser "student"` it still
returns true, although the policy of the user resolved from the current user id is false. -/
theorem C12_counterexample :
    (SetCurrentUser "student"
        (IsViewModeEnabled studentForbidden ViewMode.Graphing NavState.initial).2).CurrentUserId
      = "student"
    ∧ studentForbidden.GetFromId "student" = some ⟨"student"⟩
    ∧ studentForbidden.GetPolicyBoolean ⟨"student"⟩ "Education" "AllowGraphingCalculator" = false
    ∧ (IsViewModeEnabled studentForbidden ViewMode.Graphing
        (SetCurrentUser "student"
          (IsViewModeEnabled studentForbidden ViewMode.Graphing NavState.initial).2)).1 = true := by
  decide

/-- C12 (amended). `IsViewModeEnabled m` is true, and leaves the state alone, for every view
mode other than `Graphing`, whatever the policy and the current user. `IsViewModeEnabled
Graphing`, evaluated while the flag is not yet memoized, is the `AllowGraphingCalculator` policy
of the user resolved from the current user id, and true when no user is resolved; evaluated
after the flag was memoized, it is the memoized value. -/
theorem C12_view_mode_enabled (services : PlatformServices) (s : NavState) :
    (∀ m : ViewMode, m ≠ ViewMode.Graphing → IsViewModeEnabled services m s = (true, s))
    ∧ (s.enabled = none →
        (∀ user, services.GetFromId s.CurrentUserId = some user →
          (IsViewModeEnabled services ViewMode.Graphing s).1
            = services.GetPolicyBoolean user "Education" "AllowGraphingCalculator")
        ∧ (services.GetFromId s.CurrentUserId = none →
          (IsViewModeEnabled services ViewMode.Graphing s).1 = true))
    ∧ (∀ b : Bool, s.enabled = some b →
        (IsViewModeEnabled services ViewMode.Graphing s).1 = b) := by
  refine ⟨?_, ?_, ?_⟩
  · intro m hm
    simp [IsViewModeEnabled, hm]
  · intro hnone
    constructor
    · intro user huser
      simp [IsViewModeEnabled, IsGraphingModeEnabled, hnone, computeGraphingModeEnabled, huser]
    · intro huser
      simp [IsViewModeEnabled, IsGraphingModeEnabled, hnone, computeGraphingModeEnabled, huser]
  · intro b hb
    simp [IsViewModeEnabled, IsGraphingModeEnabled_of_memo services s b hb]

/-- Witness of C12 (amended): at process start with a resolvable, forbidden user the first
evaluation is false; `Standard` is enabled; a memoized true is returned as it is. -/
theorem C12_view_mode_enabled_witness :
    (IsViewModeEnabled graphingForbidden ViewMode.Standard NavState.initial).1 = true
    ∧ (IsViewModeEnabled graphingForbidden ViewMode.Graphing NavState.initial).1 = false
    ∧ (IsViewModeEnabled noUser ViewMode.Graphing NavState.initial).1 = true
    ∧ (IsViewModeEnabled graphingForbidden ViewMode.Graphing ⟨"student", some true⟩).1 = true :=
  ⟨by rw [(C12_view_mode_enabled graphingForbidden NavState.initial).1 ViewMode.Standard
      (by decide)],
   ((C12_view_mode_enabled graphingForbidden NavState.initial).2.1 (by decide)).1 ⟨""⟩
     (by decide),
   ((C12_view_mode_enabled noUser NavState.initial).2.1 (by decide)).2 (by decide),
   (C12_view_mode_enabled graphingForbidden ⟨"student", some true⟩).2.2 true (by decide)⟩

/-- C16. Graphing enablement is decided once. After an evaluation of `IsViewModeEnabled
Graphing`, and after a `Deserialize` that reaches the Graphing check (the first entry with the
boxed id is the Graphing one), every later evaluation, after any sequence of calls
(`SetCurrentUser` among them) and under any other platform services, returns the value of that
first evaluation. `SetCurrentUser` stores the user id and leaves the memoized flag as it is. -/
theorem C16_graphing_decided_once (manifest : List NavCategoryInitializer)
    (first later : PlatformServices) (s : NavState) (calls : List NavCall) :
    (IsViewModeEnabled later ViewMode.Graphing
        (runCalls manifest calls (IsViewModeEnabled first ViewMode.Graphing s).2)).1
      = (IsViewModeEnabled first ViewMode.Graphing s).1
    ∧ (∀ (n : Int) (e : NavCategoryInitializer),
        find_if manifest (fun x => x.serializationId == n) = some e →
        e.viewMode = ViewMode.Graphing →
        (IsViewModeEnabled later ViewMode.Graphing
            (runCalls manifest calls
              (Deserialize manifest first (PlatformObject.boxedInt n) s).2)).1
          = (IsGraphingModeEnabled first s).1
        ∧ (Deserialize manifest later (PlatformObject.boxedInt n)
            (runCalls manifest calls
              (Deserialize manifest first (PlatformObject.boxedInt n) s).2)).1
          = (Deserialize manifest first (PlatformObject.boxedInt n) s).1)
    ∧ (∀ userId : String,
        (SetCurrentUser userId s).CurrentUserId = userId
        ∧ (SetCurrentUser userId s).enabled = s.enabled)
    ∧ (∀ userIds : List String,
        (runCalls manifest (userIds.map NavCall.setCurrentUser) s).enabled = s.enabled) := by
  have hlater : ∀ (s1 : NavState) (b : Bool), s1.enabled = some b →
      IsGraphingModeEnabled later (runCalls manifest calls s1)
        = (b, runCalls manifest calls s1) :=
    fun s1 b h => IsGraphingModeEnabled_of_memo later _ b (runCalls_keeps_memo manifest calls s1 b h)
  refine ⟨?_, ?_, ?_, ?_⟩
  · have h := hlater _ _ (IsGraphingModeEnabled_memoizes first s)
    simp [IsViewModeEnabled, h]
  · intro n e hf hg
    have hs1 : (Deserialize manifest first (PlatformObject.boxedInt n) s)
        = (if (IsGraphingModeEnabled first s).1 then ViewMode.Graphing else ViewMode.None,
            (IsGraphingModeEnabled first s).2) := by
      simp [Deserialize, PlatformObject.asBoxedInt, hf, hg]
    have h := hlater _ _ (IsGraphingModeEnabled_memoizes first s)
    rw [hs1]
    constructor
    · simp [IsViewModeEnabled, h]
    · simp [Deserialize, PlatformObject.asBoxedInt, hf, hg, h]
  · intro userId
    exact ⟨rfl, rfl⟩
  · intro userIds
    induction userIds generalizing s with
    | nil => rfl
    | cons u rest ih =>
      simp only [List.map_cons, runCalls, NavCall.run]
      rw [ih]
      rfl

/-- Witness of C16: at process start no user is resolved, so the first evaluation memoizes
true; after the user "student" is set, whose policy forbids graphing, the evaluations still
return true and the sample manifest still deserializes id 17 to `Graphing`. -/
theorem C16_graphing_decided_once_witness :
    (IsViewModeEnabled studentForbidden ViewMode.Graphing
        (runCalls sampleManifest [NavCall.setCurrentUser "student"]
          (IsViewModeEnabled studentForbidden ViewMode.Graphing NavState.initial).2)).1
      = (IsViewModeEnabled studentForbidden ViewMode.Graphing NavState.initial).1
    ∧ (Deserialize sampleManifest studentForbidden (PlatformObject.boxedInt 17)
        (runCalls sampleManifest [NavCall.setCurrentUser "student"]
          (Deserialize sampleManifest studentForbidden (PlatformObject.boxedInt 17)
            NavState.initial).2)).1
      = (Deserialize sampleManifest studentForbidden (PlatformObject.boxedInt 17)
          NavState.initial).1
    ∧ (Deserialize sampleManifest studentForbidden (PlatformObject.boxedInt 17)
          NavState.initial).1 = ViewMode.Graphing :=
  have h := C16_graphing_decided_once sampleManifest studentForbidden studentForbidden
    NavState.initial [NavCall.setCurrentUser "student"]
  ⟨h.1,
   (h.2.1 17 ⟨ViewMode.Graphing, GRAPHING_ID, WideCString.read "Graphing",
      "GraphingCalculatorMode", "G",
      CategoryGroupType.Calculator, MyVirtualKey.None, none, SUPPORTS_ALL⟩
      (by decide) (by decide)).2,
   by decide⟩

/-! ## Category groups -/

/-- The loop of the group constructor appends one item per entry of the group, in manifest
order; seen through the view mode and the two flags of each item. -/
theorem appendCategories_flags (resProvider : ResourceServices)
    (groupInitializer : NavCategoryGroupInitializer) (m_Name groupMode format : String)
    (manifest : List NavCategoryInitializer) (m_Categories : List NavCategory) :
    (appendCategories resProvider groupInitializer m_Name groupMode format manifest
        m_Categories).map (fun c => (c.viewMode, c.supportsNegative, c.isEnabled))
      = m_Categories.map (fun c => (c.viewMode, c.supportsNegative, c.isEnabled))
        ++ (manifest.filter (fun e => e.groupType == groupInitializer.type)).map
            (fun e => (e.viewMode, e.supportsNegative, e.viewMode != ViewMode.Graphing)) := by
  induction manifest generalizing m_Categories with
  | nil => simp [appendCategories]
  | cons x rest ih =>
    unfold appendCategories
    by_cases hx : x.groupType = groupInitializer.type
    · simp [hx, ih]
    · simp [hx, ih]

/-- C13. For every group descriptor and every resource lookup, the category list of the
constructed group has one item per manifest entry whose group type is the descriptor's, and no
other item, in manifest order; each item carries the view mode and the supports-negative flag of
its entry, and is enabled exactly when that view mode is not `Graphing`. On the manifest of the
source the Calculator group is `Standard, Scientific`, the Converter group is empty, and
`CreateMenuOptions` returns one group, the Calculator group. -/
theorem C13_category_group (manifest : List NavCategoryInitializer)
    (resProvider : ResourceServices) (groupInitializer : NavCategoryGroupInitializer) :
    (NavCategoryGroup.NavCategoryGroup manifest resProvider groupInitializer).Categories.map
        (fun c => (c.viewMode, c.supportsNegative, c.isEnabled))
      = (manifest.filter (fun e => e.groupType == groupInitializer.type)).map
          (fun e => (e.viewMode, e.supportsNegative, e.viewMode != ViewMode.Graphing))
    ∧ (NavCategoryGroup.NavCategoryGroup manifest resProvider groupInitializer).GroupType
        = groupInitializer.type
    ∧ (CreateCalculatorCategoryGroup s_categoryManifest resProvider).Categories.map
        (fun c => c.viewMode) = [ViewMode.Standard, ViewMode.Scientific]
    ∧ (CreateConverterCategoryGroup s_categoryManifest resProvider).Categories = []
    ∧ CreateMenuOptions s_categoryManifest resProvider
        = [CreateCalculatorCategoryGroup s_categoryManifest resProvider]
    ∧ (CreateCalculatorCategoryGroup s_categoryManifest resProvider).GroupType
        = CategoryGroupType.Calculator := by
  have hflags : ∀ (l : List NavCategoryInitializer) (g : NavCategoryGroupInitializer),
      (NavCategoryGroup.NavCategoryGroup l resProvider g).Categories.map
          (fun c => (c.viewMode, c.supportsNegative, c.isEnabled))
        = (l.filter (fun e => e.groupType == g.type)).map
            (fun e => (e.viewMode, e.supportsNegative, e.viewMode != ViewMode.Graphing)) := by
    intro l g
    simp [NavCategoryGroup.NavCategoryGroup, appendCategories_flags]
  refine ⟨hflags manifest groupInitializer, rfl, ?_, ?_, rfl, rfl⟩
  · have h := congrArg (List.map (fun p : ViewMode × Bool × Bool => p.1))
      (hflags s_categoryManifest ⟨CategoryGroupType.Calculator, "CalculatorModeTextCaps",
        "CalculatorModeText", "CalculatorModePluralText"⟩)
    rw [List.map_map] at h
    exact h.trans (by decide)
  · have h := hflags s_categoryManifest ⟨CategoryGroupType.Converter, "ConverterModeTextCaps",
      "ConverterModeText", "ConverterModePluralText"⟩
    have hnil : (s_categoryManifest.filter
          (fun e => e.groupType == CategoryGroupType.Converter)).map
            (fun e => (e.viewMode, e.supportsNegative, e.viewMode != ViewMode.Graphing))
        = [] := by decide
    rw [hnil] at h
    exact List.map_eq_nil_iff.mp h

/-- Witness of C13 on the sample manifest: the Calculator group is `Standard` and a disabled
`Graphing`, the Converter group is `Length` (positive only) and `Temperature`. -/
theorem C13_category_group_witness :
    (NavCategoryGroup.NavCategoryGroup sampleManifest echoResources
        ⟨CategoryGroupType.Calculator, "CalculatorModeTextCaps", "CalculatorModeText",
          "CalculatorModePluralText"⟩).Categories.map
        (fun c => (c.viewMode, c.supportsNegative, c.isEnabled))
      = [(ViewMode.Standard, true, true), (ViewMode.Graphing, true, false)]
    ∧ (NavCategoryGroup.NavCategoryGroup sampleManifest echoResources
        ⟨CategoryGroupType.Converter, "ConverterModeTextCaps", "ConverterModeText",
          "ConverterModePluralText"⟩).Categories.map
        (fun c => (c.viewMode, c.supportsNegative, c.isEnabled))
      = [(ViewMode.Length, false, true), (ViewMode.Temperature, true, true)] :=
  ⟨(C13_category_group sampleManifest echoResources
      ⟨CategoryGroupType.Calculator, "CalculatorModeTextCaps", "CalculatorModeText",
        "CalculatorModePluralText"⟩).1.trans (by decide),
   (C13_category_group sampleManifest echoResources
      ⟨CategoryGroupType.Converter, "ConverterModeTextCaps", "ConverterModeText",
        "ConverterModePluralText"⟩).1.trans (by decide)⟩

/-! ## Classification on the manifest of the source -/

/-- Counterexample to C15 as stated: on the manifest of the source `IsCalculatorViewMode
Programmer` is false, so that the calculator modes are not Standard, Scientific and
Programmer. -/
theorem C15_counterexample :
    NavCategory.IsCalculatorViewMode s_categoryManifest ViewMode.Programmer = false
    ∧ ¬ (∀ m : ViewMode, NavCategory.IsCalculatorViewMode s_categoryManifest m = true
        ↔ (m = ViewMode.Standard ∨ m = ViewMode.Scientific ∨ m = ViewMode.Programmer)) := by
  refine ⟨by decide, ?_⟩
  intro h
  exact absurd ((h ViewMode.Programmer).mpr (by decide)) (by decide)

/-- C15 (amended). The calculator modes of the manifest of the source are Standard and
Scientific: `IsCalculatorViewMode m` is true exactly when `m` is `Standard` or `Scientific`, and
false for `Programmer`, `Date`, `Graphing` and every converter mode. For every manifest it is
true exactly when `m` is neither `Date` nor `Graphing` and some entry of group Calculator
carries `m`. -/
theorem C15_calculator_view_modes :
    (∀ m : ViewMode, NavCategory.IsCalculatorViewMode s_categoryManifest m = true
        ↔ (m = ViewMode.Standard ∨ m = ViewMode.Scientific))
    ∧ NavCategory.IsCalculatorViewMode s_categoryManifest ViewMode.Programmer = false
    ∧ NavCategory.IsCalculatorViewMode s_categoryManifest ViewMode.Date = false
    ∧ NavCategory.IsCalculatorViewMode s_categoryManifest ViewMode.Graphing = false
    ∧ (∀ (manifest : List NavCategoryInitializer) (m : ViewMode),
        NavCategory.IsCalculatorViewMode manifest m = true
          ↔ (m ≠ ViewMode.Date ∧ m ≠ ViewMode.Graphing
              ∧ ∃ e ∈ manifest, e.viewMode = m
                  ∧ e.groupType = CategoryGroupType.Calculator)) := by
  refine ⟨?_, by decide, by decide, by decide, ?_⟩
  · intro m
    cases m <;> decide
  · intro manifest m
    simp [NavCategory.IsCalculatorViewMode, NavCategory.IsDateCalculatorViewMode,
      NavCategory.IsGraphingCalculatorViewMode, NavCategory.IsModeInCategoryGroup, any_of_iff,
      and_assoc]

/-! ## Round trips and agreement of the queries -/

/-- C17. Reverse round trip: in a manifest in which each view mode occurs at most once, a boxed
integer that `Deserialize` maps to a view mode other than `ViewMode.None` is what `Serialize`
returns for that view mode. -/
theorem C17_deserialize_then_serialize (manifest : List NavCategoryInitializer)
    (services : PlatformServices) (s : NavState) (n : Int)
    (hnodup : (manifest.map (fun e => e.viewMode)).Nodup)
    (h : (Deserialize manifest services (PlatformObject.boxedInt n) s).1 ≠ ViewMode.None) :
    Serialize manifest (Deserialize manifest services (PlatformObject.boxedInt n) s).1 = n := by
  cases hf : find_if manifest (fun x => x.serializationId == n) with
  | none => simp [Deserialize, PlatformObject.asBoxedInt, hf] at h
  | some e =>
    obtain ⟨hel, heid⟩ := find_if_some_mem hf
    have heid : e.serializationId = n := by simpa using heid
    have hres : (Deserialize manifest services (PlatformObject.boxedInt n) s).1 = e.viewMode := by
      by_cases hg : e.viewMode = ViewMode.Graphing
      · cases hen : (IsGraphingModeEnabled services s).1
        · simp [Deserialize, PlatformObject.asBoxedInt, hf, hg, hen] at h
        · simp [Deserialize, PlatformObject.asBoxedInt, hf, hg, hen]
      · simp [Deserialize, PlatformObject.asBoxedInt, hf, hg]
    rw [hres]
    obtain ⟨a, ha⟩ := find_if_exists manifest (fun x => x.viewMode == e.viewMode)
      ⟨e, hel, by simp⟩
    obtain ⟨hal, hav⟩ := find_if_some_mem ha
    have hav : a.viewMode = e.viewMode := by simpa using hav
    have hae : a = e := List.inj_on_of_nodup_map hnodup hal hel hav
    simp [Serialize, ha, hae, heid]

/-- Witness of C17 on the manifest of the source, at the boxed 1. -/
theorem C17_deserialize_then_serialize_witness :
    (s_categoryManifest.map (fun e => e.viewMode)).Nodup
    ∧ (Deserialize s_categoryManifest noUser (PlatformObject.boxedInt 1) NavState.initial).1
        ≠ ViewMode.None
    ∧ Serialize s_categoryManifest
        (Deserialize s_categoryManifest noUser (PlatformObject.boxedInt 1) NavState.initial).1
        = 1 :=
  ⟨by decide, by decide,
   C17_deserialize_then_serialize s_categoryManifest noUser NavState.initial 1 (by decide)
     (by decide)⟩

/-- C18. Friendly-name round trip: in a manifest whose friendly names are pairwise distinct,
the friendly name of a listed view mode maps back to that view mode. The friendly name of a view
mode that is not listed is "None", and on the manifest of the source "None" maps to
`ViewMode.None`. -/
theorem C18_friendly_name_round_trip (manifest : List NavCategoryInitializer) (m : ViewMode) :
    ((manifest.map (fun e => e.friendlyName)).Nodup → (∃ e ∈ manifest, e.viewMode = m) →
        GetViewModeForFriendlyName manifest (GetFriendlyName manifest m) = m)
    ∧ ((∀ e ∈ manifest, e.viewMode ≠ m) → GetFriendlyName manifest m = "None")
    ∧ GetViewModeForFriendlyName s_categoryManifest "None" = ViewMode.None := by
  refine ⟨?_, ?_, by decide⟩
  · rintro hnames ⟨e, he, hem⟩
    obtain ⟨a, ha⟩ := find_if_exists manifest (fun x => x.viewMode == m) ⟨e, he, by simp [hem]⟩
    obtain ⟨hal, hav⟩ := find_if_some_mem ha
    have hav : a.viewMode = m := by simpa using hav
    obtain ⟨b, hb⟩ := find_if_exists manifest
      (fun x => wcscmp x.friendlyName (WideCString.read a.friendlyName.text) == 0)
      ⟨a, hal, by rw [WideCString_read_text]; exact (wcscmp_beq_zero _ _).mpr rfl⟩
    obtain ⟨hbl, hbn⟩ := find_if_some_mem hb
    have hbn : b.friendlyName = a.friendlyName := by
      rw [WideCString_read_text] at hbn
      exact (wcscmp_beq_zero _ _).mp hbn
    have hba : b = a := List.inj_on_of_nodup_map hnames hbl hal hbn
    simp [GetViewModeForFriendlyName, GetFriendlyName, ha, hb, hba, hav]
  · intro hm
    have hf : find_if manifest (fun x => x.viewMode == m) = none :=
      find_if_none _ _ (fun x hx => by simpa using hm x hx)
    simp [GetFriendlyName, hf]

/-- Witness of C18 on the manifest of the source: `Scientific` is listed, `Date` is not. -/
theorem C18_friendly_name_round_trip_witness :
    (s_categoryManifest.map (fun e => e.friendlyName)).Nodup
    ∧ GetViewModeForFriendlyName s_categoryManifest
        (GetFriendlyName s_categoryManifest ViewMode.Scientific) = ViewMode.Scientific
    ∧ GetFriendlyName s_categoryManifest ViewMode.Date = "None" :=
  ⟨by decide,
   (C18_friendly_name_round_trip s_categoryManifest ViewMode.Scientific).1 (by decide)
     (by decide),
   (C18_friendly_name_round_trip s_categoryManifest ViewMode.Date).2.1 (by decide)⟩

/-- C19. On the manifest of the source the two accelerator queries agree: a virtual key maps
to a view mode other than `ViewMode.None` exactly when it is in the list that
`GetCategoryAcceleratorKeys` produces; `MyVirtualKey.None` maps to `ViewMode.None`. -/
theorem C19_accelerator_queries_agree (k : MyVirtualKey) (initial : List MyVirtualKey) :
    (∃ keys, GetCategoryAcceleratorKeys s_categoryManifest (some initial) = some keys
      ∧ (GetViewModeForVirtualKey s_categoryManifest k ≠ ViewMode.None ↔ k ∈ keys))
    ∧ GetViewModeForVirtualKey s_categoryManifest MyVirtualKey.None = ViewMode.None := by
  refine ⟨⟨[MyVirtualKey.Number1, MyVirtualKey.Number2], ?_, ?_⟩, by decide⟩
  · simp only [GetCategoryAcceleratorKeys, appendAcceleratorKeys_eq]
    decide
  · by_cases h1 : k = MyVirtualKey.Number1
    · subst h1; decide
    · by_cases h2 : k = MyVirtualKey.Number2
      · subst h2; decide
      · have h1b : (MyVirtualKey.Number1 == k) = false := by
          simpa using fun h => h1 h.symm
        have h2b : (MyVirtualKey.Number2 == k) = false := by
          simpa using fun h => h2 h.symm
        simp [GetViewModeForVirtualKey, s_categoryManifest, find_if, h1, h2, h1b, h2b]

/-- C20. The group queries agree: in a manifest in which each view mode occurs at most once,
`IsModeInCategoryGroup m t` holds exactly when `m` is a valid view mode whose group type is `t`,
and exactly when `GetIndexInGroup m t` is at least 0. -/
theorem C20_group_queries_agree (manifest : List NavCategoryInitializer)
    (hnodup : (manifest.map (fun e => e.viewMode)).Nodup) (m : ViewMode)
    (t : CategoryGroupType) :
    (NavCategory.IsModeInCategoryGroup manifest m t = true
      ↔ (IsValidViewMode manifest m = true ∧ GetGroupType manifest m = t))
    ∧ (NavCategory.IsModeInCategoryGroup manifest m t = true
      ↔ 0 ≤ GetIndexInGroup manifest m t) := by
  have hin : NavCategory.IsModeInCategoryGroup manifest m t = true
      ↔ ∃ e ∈ manifest, e.viewMode = m ∧ e.groupType = t := by
    simp [NavCategory.IsModeInCategoryGroup, any_of_iff]
  constructor
  · rw [hin]
    constructor
    · rintro ⟨e, he, hem, het⟩
      obtain ⟨a, ha⟩ := find_if_exists manifest (fun x => x.viewMode == m)
        ⟨e, he, by simp [hem]⟩
      obtain ⟨hal, hav⟩ := find_if_some_mem ha
      have hav : a.viewMode = m := by simpa using hav
      have hae : a = e := List.inj_on_of_nodup_map hnodup hal he (hav.trans hem.symm)
      simp [IsValidViewMode, GetGroupType, ha, hae, het]
    · rintro ⟨hvalid, hgroup⟩
      cases hf : find_if manifest (fun x => x.viewMode == m) with
      | none => simp [IsValidViewMode, hf] at hvalid
      | some a =>
        obtain ⟨hal, hav⟩ := find_if_some_mem hf
        have hav : a.viewMode = m := by simpa using hav
        have hag : a.groupType = t := by simpa [GetGroupType, hf] using hgroup
        exact ⟨a, hal, hav, hag⟩
  · rw [hin]
    constructor
    · rintro ⟨e, he, hem, het⟩
      obtain ⟨i, hi, hie⟩ := List.getElem_of_mem he
      have hfirst : ∀ j (hj : j < i), manifest[j].viewMode ≠ m := by
        intro j hj heq
        have := position_unique_of_nodup_map (fun x => x.viewMode) manifest hnodup j i
          (by omega) hi (by simp only [heq, hie, hem])
        omega
      have hfound := find_if_st_group manifest m t (-1) i hi (by rw [hie]; exact het)
        (by rw [hie]; exact hem) hfirst
      simp only [GetIndexInGroup, hfound]
      omega
    · intro hge
      by_contra hnot
      have hmiss := find_if_st_none manifest (indexInGroupStep m t) (-1)
        (fun k x hx => by
          unfold indexInGroupStep
          split
          · rename_i hxg
            have hxg : x.groupType = t := by simpa using hxg
            have hne : x.viewMode ≠ m := fun hxm => hnot ⟨x, hx, hxm, hxg⟩
            simpa using hne
          · rfl)
      simp [GetIndexInGroup, hmiss] at hge

/-- Witness of C20 on the sample manifest: `Length` is in the Converter group. -/
theorem C20_group_queries_agree_witness :
    (sampleManifest.map (fun e => e.viewMode)).Nodup
    ∧ (NavCategory.IsModeInCategoryGroup sampleManifest ViewMode.Length
          CategoryGroupType.Converter = true
        ↔ (IsValidViewMode sampleManifest ViewMode.Length = true
            ∧ GetGroupType sampleManifest ViewMode.Length = CategoryGroupType.Converter))
    ∧ (NavCategory.IsModeInCategoryGroup sampleManifest ViewMode.Length
          CategoryGroupType.Converter = true
        ↔ 0 ≤ GetIndexInGroup sampleManifest ViewMode.Length CategoryGroupType.Converter) :=
  ⟨by decide,
   C20_group_queries_agree sampleManifest (by decide) ViewMode.Length
     CategoryGroupType.Converter⟩
